import Mathlib

/-!
FlySight `UBX.c`: frame decoder, frame encoder, handshake and tone engine.

A shallow embedding of `FlySight/FlySight/UBX.c`.

* Bytes and the unsigned machine integers are `Nat`; every place where the C
  arithmetic wraps carries an explicit `% 2^w`.  Signed 32-bit integers are
  `Int`, wrapped by `wrap32`.
* The `static` variables of a C function become fields of an explicit state
  record that is passed in and returned.
* A step that C leaves undefined (a write past the end of `UBX_payload`, a
  division by zero) makes the embedding return `none`.
* Calls to the collaborators (`uart_putc`, `Tone_SetRate`, ...) are recorded
  in order as an output trace.
-/

namespace UBX

/-! ## Constants (`#define`s of `UBX.c`) -/

abbrev UBX_INVALID_VALUE : Int := 2147483647

abbrev UBX_TIMEOUT : Nat := 500
abbrev UBX_MAX_PAYLOAD_LEN : Nat := 64

abbrev UBX_SYNC_1 : Nat := 0xb5
abbrev UBX_SYNC_2 : Nat := 0x62

abbrev UBX_NAV : Nat := 0x01
abbrev UBX_NAV_POSLLH : Nat := 0x02
abbrev UBX_NAV_STATUS : Nat := 0x03
abbrev UBX_NAV_SOL : Nat := 0x06
abbrev UBX_NAV_VELNED : Nat := 0x12
abbrev UBX_NAV_TIMEUTC : Nat := 0x21

abbrev UBX_ACK : Nat := 0x05
abbrev UBX_ACK_NAK : Nat := 0x00
abbrev UBX_ACK_ACK : Nat := 0x01

abbrev UBX_CFG : Nat := 0x06

/-! ## Frame decoder (`UBX_HandleByte`) -/

/-- The anonymous `enum` of `UBX_HandleByte`. -/
inductive HandleByteState where
  | st_sync_1
  | st_sync_2
  | st_class
  | st_id
  | st_length_1
  | st_length_2
  | st_payload
  | st_ck_a
  | st_ck_b
  deriving DecidableEq, Repr

open HandleByteState

/-- The variables `UBX_HandleByte` reads and writes: its `static` locals
(`state`, `ck_a`, `ck_b`, `index`) and the file-level `UBX_msg_class`,
`UBX_msg_id`, `UBX_payload_len`, `UBX_payload`.  `UBX_payload` is an array of
`UBX_MAX_PAYLOAD_LEN` bytes: a list of length 64. -/
structure Decoder where
  state : HandleByteState
  ck_a : Nat
  ck_b : Nat
  index : Nat
  UBX_msg_class : Nat
  UBX_msg_id : Nat
  UBX_payload_len : Nat
  UBX_payload : List Nat
  deriving DecidableEq, Repr

/-- The decoder at program start: `state = st_sync_1`, every other static
zero-initialised, `UBX_payload` an array of `UBX_MAX_PAYLOAD_LEN` zero bytes. -/
def Decoder.init : Decoder :=
  { state := st_sync_1, ck_a := 0, ck_b := 0, index := 0,
    UBX_msg_class := 0, UBX_msg_id := 0, UBX_payload_len := 0,
    UBX_payload := List.replicate UBX_MAX_PAYLOAD_LEN 0 }

/-- `UBX_HandleByte(ch)`: consumes one byte and returns the new decoder
together with `ret`.  `ck_a`, `ck_b` are `uint8_t` (sums taken `% 256`),
`UBX_payload_len` and `index` are `uint16_t` (`% 65536`).  The result is
`none` when `UBX_payload[index++] = ch` would write outside the array. -/
def UBX_HandleByte (d : Decoder) (ch : Nat) : Option (Decoder × Nat) :=
  match d.state with
  | st_sync_1 =>
    if ch = UBX_SYNC_1 then
      some ({ d with state := st_sync_2 }, 0)
    else
      some (d, 0)
  | st_sync_2 =>
    if ch = UBX_SYNC_2 then
      some ({ d with state := st_class }, 0)
    else
      some ({ d with state := st_sync_1 }, 0)
  | st_class =>
    some ({ d with UBX_msg_class := ch, ck_a := ch, ck_b := ch, state := st_id }, 0)
  | st_id =>
    let ck_a := (d.ck_a + ch) % 256
    let ck_b := (d.ck_b + ck_a) % 256
    some ({ d with UBX_msg_id := ch, ck_a := ck_a, ck_b := ck_b, state := st_length_1 }, 0)
  | st_length_1 =>
    let ck_a := (d.ck_a + ch) % 256
    let ck_b := (d.ck_b + ck_a) % 256
    some ({ d with UBX_payload_len := ch, ck_a := ck_a, ck_b := ck_b, state := st_length_2 }, 0)
  | st_length_2 =>
    let len := (d.UBX_payload_len + ch * 256) % 65536
    let ck_a := (d.ck_a + ch) % 256
    let ck_b := (d.ck_b + ck_a) % 256
    if len = 0 then
      some ({ d with UBX_payload_len := len, ck_a := ck_a, ck_b := ck_b, state := st_ck_a }, 0)
    else if len ≤ UBX_MAX_PAYLOAD_LEN then
      some ({ d with UBX_payload_len := len, ck_a := ck_a, ck_b := ck_b,
                     state := st_payload, index := 0 }, 0)
    else
      some ({ d with UBX_payload_len := len, ck_a := ck_a, ck_b := ck_b, state := st_sync_1 }, 0)
  | st_payload =>
    if d.index < UBX_MAX_PAYLOAD_LEN then
      let payload := d.UBX_payload.set d.index ch
      let index := (d.index + 1) % 65536
      let ck_a := (d.ck_a + ch) % 256
      let ck_b := (d.ck_b + ck_a) % 256
      if index = d.UBX_payload_len then
        some ({ d with UBX_payload := payload, index := index, ck_a := ck_a, ck_b := ck_b,
                       state := st_ck_a }, 0)
      else
        some ({ d with UBX_payload := payload, index := index, ck_a := ck_a, ck_b := ck_b }, 0)
    else
      none
  | st_ck_a =>
    if d.ck_a = ch then
      some ({ d with state := st_ck_b }, 0)
    else
      some ({ d with state := st_sync_1 }, 0)
  | st_ck_b =>
    if d.ck_b = ch then
      some ({ d with state := st_sync_1 }, 1)
    else
      some ({ d with state := st_sync_1 }, 0)

/-- Successive calls `UBX_HandleByte(b)` for the bytes of a stream, in order
(what `UBX_Task` and `UBX_WaitForAck` do with the bytes they receive):
the final decoder and the list of the values returned, one per byte. -/
def feedBytes (d : Decoder) : List Nat → Option (Decoder × List Nat)
  | [] => some (d, [])
  | ch :: rest =>
    match UBX_HandleByte d ch with
    | none => none
    | some (d1, r) =>
      match feedBytes d1 rest with
      | none => none
      | some (d2, rs) => some (d2, r :: rs)

/-! ## Frame encoder (`UBX_SendMessage`) -/

/-- What the transmit part of `UBX_SendMessage` builds up: the bytes handed
to `uart_putc`, oldest first, and the two running sums. -/
structure Tx where
  out : List Nat
  ck_a : Nat
  ck_b : Nat
  deriving DecidableEq, Repr

/-- The macro `SEND_BYTE(a)`: `uart_putc(a); ck_a += a; ck_b += ck_a;`
with `ck_a`, `ck_b` of type `uint8_t`. -/
def SEND_BYTE (t : Tx) (a : Nat) : Tx :=
  let ck_a := (t.ck_a + a) % 256
  { out := t.out ++ [a], ck_a := ck_a, ck_b := (t.ck_b + ck_a) % 256 }

/-- Lines 412-435 of `UBX_SendMessage(msg_class, msg_id, size, data)`: the
bytes transmitted.  `data` holds the bytes `bytes[0], bytes[1], ...`. -/
def UBX_SendMessage_tx (msg_class msg_id size : Nat) (data : List Nat) : List Nat :=
  let t : Tx := { out := [UBX_SYNC_1, UBX_SYNC_2], ck_a := 0, ck_b := 0 }
  let t := SEND_BYTE t msg_class
  let t := SEND_BYTE t msg_id
  let t := SEND_BYTE t (size % 256)
  let t := SEND_BYTE t ((size / 256) % 256)
  let t := (List.range size).foldl (fun t i => SEND_BYTE t (data.getD i 0)) t
  t.out ++ [t.ck_a, t.ck_b]

/-- The receive polls made by the loop of `UBX_WaitForAck` while
`Timer_Get() != 0`, in order: `none` is a poll where `uart_getc()` returned
`UART_NO_DATA`, `some ch` one where it returned the `unsigned int` value `ch`,
which carries the received byte in its low 8 bits. -/
abbrev Polls := List (Option Nat)

/-- `UBX_WaitForAck(msg_class, msg_id, timeout)`, run on the polls that
happen before the countdown started by `Timer_Set(timeout)` reaches 0.
`ack.clsID`, `ack.msgID` (and `nak.clsID`, `nak.msgID`) are `UBX_payload[0]`
and `UBX_payload[1]`; the call `UBX_HandleByte(ch)` converts `ch` to
`unsigned char`.  Returns the decoder left behind and the result. -/
def UBX_WaitForAck (msg_class msg_id : Nat) (d : Decoder) : Polls → Option (Decoder × Nat)
  | [] => some (d, 0)
  | none :: rest => UBX_WaitForAck msg_class msg_id d rest
  | some ch :: rest =>
    match UBX_HandleByte d (ch % 256) with
    | none => none
    | some (d1, ret) =>
      if ret ≠ 0 then
        if d1.UBX_msg_class = UBX_ACK ∧ d1.UBX_msg_id = UBX_ACK_ACK then
          if d1.UBX_payload.getD 0 0 = msg_class ∧ d1.UBX_payload.getD 1 0 = msg_id then
            some (d1, 1)
          else
            UBX_WaitForAck msg_class msg_id d1 rest
        else if d1.UBX_msg_class = UBX_ACK ∧ d1.UBX_msg_id = UBX_ACK_NAK then
          if d1.UBX_payload.getD 0 0 = msg_class ∧ d1.UBX_payload.getD 1 0 = msg_id then
            some (d1, 0)
          else
            UBX_WaitForAck msg_class msg_id d1 rest
        else
          UBX_WaitForAck msg_class msg_id d1 rest
      else
        UBX_WaitForAck msg_class msg_id d1 rest

/-- `UBX_SendMessage(msg_class, msg_id, size, data)`: the bytes transmitted,
the decoder left behind and the value returned; `polls` are the receive
polls of the `UBX_TIMEOUT` window that follows a `UBX_CFG` message. -/
def UBX_SendMessage (msg_class msg_id size : Nat) (data : List Nat) (d : Decoder)
    (polls : Polls) : Option (List Nat × Decoder × Nat) :=
  let out := UBX_SendMessage_tx msg_class msg_id size data
  if msg_class = UBX_CFG then
    match UBX_WaitForAck msg_class msg_id d polls with
    | none => none
    | some (d1, ret) => some (out, d1, ret)
  else
    some (out, d, 1)

/-! ## 32-bit integers -/

/-- The `int32_t` with the same low 32 bits as `x` (two's complement). -/
def wrap32 (x : Int) : Int := (x + 2147483648) % 4294967296 - 2147483648

/-- The `uint32_t` with the same low 32 bits as `x`: the conversion C applies
to an `int32_t` operand that meets a `uint32_t` one. -/
def toU32 (x : Int) : Nat := (x % 4294967296).toNat

/-- Division of `int32_t` by `int32_t`: truncates toward zero; `none` for a
zero divisor. -/
def div32 (a b : Int) : Option Int :=
  if b = 0 then none else some (wrap32 (Int.tdiv a b))

/-- Modelled from the spec: the macro `ABS`, which `UBX.c` takes from a header
outside `src/`; the specification writes it `abs(...)`.  On an `int32_t`
operand the negation wraps. -/
def ABS (a : Int) : Int := if a < 0 then wrap32 (-a) else a

/-- Little-endian `uint32_t` at byte offset `off` of the payload buffer. -/
def u32le (p : List Nat) (off : Nat) : Nat :=
  p.getD off 0 + 256 * p.getD (off + 1) 0 + 65536 * p.getD (off + 2) 0 +
    16777216 * p.getD (off + 3) 0

/-- Little-endian `int32_t` at byte offset `off` of the payload buffer. -/
def i32le (p : List Nat) (off : Nat) : Int := wrap32 (u32le p off)

/-- Little-endian `uint16_t` at byte offset `off` of the payload buffer. -/
def u16le (p : List Nat) (off : Nat) : Nat :=
  p.getD off 0 + 256 * p.getD (off + 1) 0

/-! ## Navigation records and configuration -/

/-- The fields of `UBX_nav_posllh`. -/
structure UBX_nav_posllh where
  iTOW : Nat
  lon : Int
  lat : Int
  height : Int
  hMSL : Int
  hAcc : Nat
  vAcc : Nat
  deriving DecidableEq, Repr

/-- The fields of `UBX_nav_sol` that `UBX.c` reads (`gpsFix`, `numSV`); the
others are stored and never used. -/
structure UBX_nav_sol where
  gpsFix : Nat
  numSV : Nat
  deriving DecidableEq, Repr

/-- The fields of `UBX_nav_velned`. -/
structure UBX_nav_velned where
  iTOW : Nat
  velN : Int
  velE : Int
  velD : Int
  speed : Nat
  gSpeed : Nat
  heading : Int
  sAcc : Nat
  cAcc : Nat
  deriving DecidableEq, Repr

/-- `*((UBX_nav_velned *) UBX_payload)`: the record laid out little-endian in
field order without padding at the start of the payload buffer. -/
def UBX_nav_velned.ofPayload (p : List Nat) : UBX_nav_velned :=
  { iTOW := u32le p 0, velN := i32le p 4, velE := i32le p 8, velD := i32le p 12,
    speed := u32le p 16, gSpeed := u32le p 20, heading := i32le p 24,
    sAcc := u32le p 28, cAcc := u32le p 32 }

/-- The constants of `Tone.h` that `UBX.c` uses.  Their values are declared
outside `src/` and are left as parameters. -/
structure Tone_h where
  TONE_RATE_FLATLINE : Nat
  TONE_MAX_PITCH : Int
  TONE_LENGTH_125_MS : Nat
  deriving DecidableEq, Repr

/-- The configuration globals of `UBX.c` (`UBX_model` ... `UBX_sAccThreshold`),
which are set from outside the file; the defaults are the initialisers of
`UBX.c`.  `UBX_rate` is `uint16_t`; `UBX_model`, `UBX_mode`, `UBX_mode_2` and
`UBX_flatline` are `uint8_t`; the others are `uint32_t`. -/
structure Config where
  UBX_model : Nat := 6
  UBX_rate : Nat := 200
  UBX_mode : Nat := 2
  UBX_min : Nat := 0
  UBX_max : Nat := 300
  UBX_mode_2 : Nat := 9
  UBX_min_2 : Nat := 300
  UBX_max_2 : Nat := 1500
  UBX_min_rate : Nat := 100
  UBX_max_rate : Nat := 500
  UBX_flatline : Nat := 0
  UBX_threshold : Nat := 1000
  UBX_hThreshold : Nat := 0
  UBX_sAccThreshold : Nat := 150
  deriving DecidableEq, Repr

/-- The remaining variables of `UBX.c` that outlive a call: the saved
navigation records, `UBX_hasFix`, `UBX_hasBeeped`, the statics `x0`, `x1`,
`x2` of `UBX_HandleVelocity` and `initializeLog` of `UBX_HandleTimeUTC`. -/
structure Globals where
  UBX_nav_pos_llh_saved : UBX_nav_posllh
  UBX_nav_sol_saved : UBX_nav_sol
  UBX_nav_velned_saved : UBX_nav_velned
  UBX_hasFix : Nat
  UBX_hasBeeped : Nat
  x0 : Int
  x1 : Int
  x2 : Int
  initializeLog : Nat
  deriving DecidableEq, Repr

/-- The variables at program start: `x0 = -1`, `initializeLog = 1`, everything
else zero-initialised. -/
def Globals.init : Globals :=
  { UBX_nav_pos_llh_saved :=
      { iTOW := 0, lon := 0, lat := 0, height := 0, hMSL := 0, hAcc := 0, vAcc := 0 },
    UBX_nav_sol_saved := { gpsFix := 0, numSV := 0 },
    UBX_nav_velned_saved :=
      { iTOW := 0, velN := 0, velE := 0, velD := 0, speed := 0, gSpeed := 0,
        heading := 0, sAcc := 0, cAcc := 0 },
    UBX_hasFix := 0, UBX_hasBeeped := 0,
    x0 := -1, x1 := 0, x2 := 0,
    initializeLog := 1 }

/-! ## Tone engine (`UBX_SetTone`, `UBX_GetValues`, `UBX_HandleVelocity`) -/

/-- A call to the tone collaborator, with the value of the argument
expression. -/
inductive ToneCall where
  | Tone_SetRate (rate : Nat)
  | Tone_SetPitch (index : Int)
  | Tone_Beep (index : Int) (length : Nat)
  deriving DecidableEq, Repr

open ToneCall

/-- The macro `UNDER(val,min,max)`. -/
def UNDER (val min max : Int) : Bool :=
  if min < max then decide (val ≤ min) else decide (val ≥ min)

/-- The macro `OVER(val,min,max)`. -/
def OVER (val min max : Int) : Bool :=
  if min < max then decide (val ≥ max) else decide (val ≤ max)

/-- The rate half of `UBX_SetTone` (both values valid).  `UBX_min_rate` and
`UBX_max_rate` are `uint32_t`, so the interpolation is evaluated in
`uint32_t`: the `int32_t` operands `val_2 - min_2` and `max_2 - min_2` are
converted by `toU32`. -/
def UBX_SetTone_rate (tone : Tone_h) (cfg : Config) (val_2 min_2 max_2 : Int) :
    Option ToneCall :=
  if UNDER val_2 min_2 max_2 then
    if cfg.UBX_flatline ≠ 0 then
      some (Tone_SetRate tone.TONE_RATE_FLATLINE)
    else
      some (Tone_SetRate cfg.UBX_min_rate)
  else if OVER val_2 min_2 max_2 then
    some (Tone_SetRate ((cfg.UBX_max_rate + 4294967296 - 1) % 4294967296))
  else
    let span := (cfg.UBX_max_rate + 4294967296 - cfg.UBX_min_rate) % 4294967296
    let num := (span * toU32 (wrap32 (val_2 - min_2))) % 4294967296
    let den := toU32 (wrap32 (max_2 - min_2))
    if den = 0 then none
    else some (Tone_SetRate ((cfg.UBX_min_rate + num / den) % 4294967296))

/-- The pitch half of `UBX_SetTone` (both values valid), evaluated in
`int32_t`. -/
def UBX_SetTone_pitch (tone : Tone_h) (val_1 min_1 max_1 : Int) : Option ToneCall :=
  if UNDER val_1 min_1 max_1 then
    some (Tone_SetPitch 0)
  else if OVER val_1 min_1 max_1 then
    some (Tone_SetPitch (tone.TONE_MAX_PITCH - 1))
  else
    match div32 (wrap32 (tone.TONE_MAX_PITCH * wrap32 (val_1 - min_1)))
        (wrap32 (max_1 - min_1)) with
    | none => none
    | some q => some (Tone_SetPitch q)

/-- `UBX_SetTone(val_1, min_1, max_1, val_2, min_2, max_2)`: the calls made to
the tone collaborator, in order. -/
def UBX_SetTone (tone : Tone_h) (cfg : Config) (val_1 min_1 max_1 val_2 min_2 max_2 : Int) :
    Option (List ToneCall) :=
  if val_1 ≠ UBX_INVALID_VALUE ∧ val_2 ≠ UBX_INVALID_VALUE then
    match UBX_SetTone_rate tone cfg val_2 min_2 max_2 with
    | none => none
    | some r =>
      match UBX_SetTone_pitch tone val_1 min_1 max_1 with
      | none => none
      | some p => some [r, p]
  else
    some [Tone_SetRate 0]

/-- `UBX_GetValues(mode, &val, &min, &max)` on the saved velocity record `v`:
the new `(*val, *min, *max)`. -/
def UBX_GetValues (v : UBX_nav_velned) (mode : Nat) (val min max : Int) : Int × Int × Int :=
  match mode with
  | 0 => (wrap32 v.gSpeed, min, max)
  | 1 => (v.velD, min, max)
  | 2 =>
    if v.velD ≠ 0 then
      (wrap32 (Int.tdiv (wrap32 (10000 * wrap32 v.gSpeed)) v.velD),
        wrap32 (min * 100), wrap32 (max * 100))
    else (val, min, max)
  | 3 =>
    if v.gSpeed ≠ 0 then
      (wrap32 (Int.tdiv (wrap32 (10000 * v.velD)) (wrap32 v.gSpeed)),
        wrap32 (min * 100), wrap32 (max * 100))
    else (val, min, max)
  | 4 => (wrap32 v.speed, min, max)
  | _ => (val, min, max)

/-- The six locals of `UBX_HandleVelocity` as they are passed to
`UBX_SetTone`. -/
structure Channels where
  val_1 : Int
  min_1 : Int
  max_1 : Int
  val_2 : Int
  min_2 : Int
  max_2 : Int
  deriving DecidableEq, Repr

/-- Lines 543-553 of `UBX_HandleVelocity`: the locals after the gated calls of
`UBX_GetValues`, for the saved velocity record `v`. -/
def UBX_HandleVelocity_gate (cfg : Config) (v : UBX_nav_velned) : Channels :=
  let c : Channels :=
    { val_1 := UBX_INVALID_VALUE, min_1 := wrap32 cfg.UBX_min, max_1 := wrap32 cfg.UBX_max,
      val_2 := UBX_INVALID_VALUE, min_2 := wrap32 cfg.UBX_min_2, max_2 := wrap32 cfg.UBX_max_2 }
  if toU32 (ABS v.velD) ≥ cfg.UBX_threshold ∧ v.gSpeed ≥ cfg.UBX_hThreshold then
    let r1 := UBX_GetValues v cfg.UBX_mode c.val_1 c.min_1 c.max_1
    let r2 := UBX_GetValues v cfg.UBX_mode_2 c.val_2 c.min_2 c.max_2
    { val_1 := r1.1, min_1 := r1.2.1, max_1 := r1.2.2,
      val_2 := r2.1, min_2 := r2.2.1, max_2 := r2.2.2 }
  else c

/-- Lines 541-568 of `UBX_HandleVelocity`: everything before the final
`if (UBX_hasFix)`.  Returns the updated variables and the locals.  In
`(int32_t) 1000 * (x2 - x0) / (2 * UBX_rate)` the divisor `2 * UBX_rate` is
computed in 16-bit `unsigned int` (`UBX_rate` is `uint16_t`, `int` has 16 bits
on the AVR target). -/
def UBX_HandleVelocity_values (cfg : Config) (g : Globals) (payload : List Nat) :
    Option (Globals × Channels) :=
  let v := UBX_nav_velned.ofPayload payload
  let g := { g with UBX_nav_velned_saved := v }
  let c := UBX_HandleVelocity_gate cfg v
  if cfg.UBX_mode_2 = 9 then
    let g := { g with x2 := g.x1, x1 := g.x0, x0 := c.val_1 }
    if g.x0 ≠ UBX_INVALID_VALUE ∧ g.x1 ≠ UBX_INVALID_VALUE ∧ g.x2 ≠ UBX_INVALID_VALUE then
      match div32 (wrap32 (1000 * wrap32 (g.x2 - g.x0)))
          (((2 * cfg.UBX_rate) % 65536 : Nat) : Int) with
      | none => none
      | some val_2 =>
        match div32 (wrap32 (10000 * ABS val_2)) (ABS (wrap32 (c.max_1 - c.min_1))) with
        | none => none
        | some val_2 => some (g, { c with val_2 := val_2 })
    else
      some (g, c)
  else
    some (g, c)

/-- `UBX_HandleVelocity()` with the payload buffer `payload`: the updated
variables and the calls made to the tone collaborator. -/
def UBX_HandleVelocity (tone : Tone_h) (cfg : Config) (g : Globals) (payload : List Nat) :
    Option (Globals × List ToneCall) :=
  match UBX_HandleVelocity_values cfg g payload with
  | none => none
  | some (g1, c) =>
    if g1.UBX_hasFix ≠ 0 then
      match UBX_SetTone tone cfg c.val_1 c.min_1 c.max_1 c.val_2 c.min_2 c.max_2 with
      | none => none
      | some calls => some (g1, calls)
    else
      some (g1, [])

/-! ## Fix tracker, log records and dispatch -/

/-- `*((UBX_nav_posllh *) UBX_payload)`. -/
def UBX_nav_posllh.ofPayload (p : List Nat) : UBX_nav_posllh :=
  { iTOW := u32le p 0, lon := i32le p 4, lat := i32le p 8, height := i32le p 12,
    hMSL := i32le p 16, hAcc := u32le p 20, vAcc := u32le p 24 }

/-- `*((UBX_nav_sol *) UBX_payload)`: `gpsFix` is the byte at offset 10 (after
`iTOW`, `fTOW`, `week`), `numSV` the byte at offset 47 (after `pDOP`, `res1`). -/
def UBX_nav_sol.ofPayload (p : List Nat) : UBX_nav_sol :=
  { gpsFix := p.getD 10 0, numSV := p.getD 47 0 }

/-- The fields of `UBX_nav_timeutc`. -/
structure UBX_nav_timeutc where
  iTOW : Nat
  tAcc : Nat
  nano : Int
  year : Nat
  month : Nat
  day : Nat
  hour : Nat
  min : Nat
  sec : Nat
  valid : Nat
  deriving DecidableEq, Repr

/-- `*((UBX_nav_timeutc *) UBX_payload)`. -/
def UBX_nav_timeutc.ofPayload (p : List Nat) : UBX_nav_timeutc :=
  { iTOW := u32le p 0, tAcc := u32le p 4, nano := i32le p 8, year := u16le p 12,
    month := p.getD 14 0, day := p.getD 15 0, hour := p.getD 16 0, min := p.getD 17 0,
    sec := p.getD 18 0, valid := p.getD 19 0 }

/-- A call to the power or log collaborator, with the values of the argument
expressions. -/
inductive LogCall where
  | Power_Hold
  | Power_Release
  | Log_Init (year month day hour min sec : Nat)
  | Log_WriteInt32 (value : Int) (a b : Nat) (delimiter : Char)
  | Log_WriteChar (ch : Char)
  | Log_Flush
  deriving DecidableEq, Repr

open LogCall

/-- `UBX_HandlePosition()`. -/
def UBX_HandlePosition (g : Globals) (payload : List Nat) : Globals :=
  { g with UBX_nav_pos_llh_saved := UBX_nav_posllh.ofPayload payload }

/-- `UBX_HandleNavSol()` with the payload buffer `payload`: the updated
variables and the calls made to the tone collaborator. -/
def UBX_HandleNavSol (tone : Tone_h) (cfg : Config) (g : Globals) (payload : List Nat) :
    Option (Globals × List ToneCall) :=
  let g := { g with UBX_nav_sol_saved := UBX_nav_sol.ofPayload payload }
  if g.UBX_nav_sol_saved.gpsFix = 0x03 then
    if g.UBX_hasBeeped = 0 then
      some ({ g with UBX_hasBeeped := 1, UBX_hasFix := 1 },
        [Tone_Beep (tone.TONE_MAX_PITCH - 1) tone.TONE_LENGTH_125_MS])
    else
      some ({ g with UBX_hasFix := 1 }, [])
  else
    match UBX_SetTone tone cfg UBX_INVALID_VALUE 0 0 0 0 0 with
    | none => none
    | some calls => some ({ g with UBX_hasFix := 0 }, calls)

/-- The field writes of one log record in `UBX_HandleTimeUTC` (from the first
`Log_WriteInt32` to the last `Log_WriteChar`), for the decoded time record `t`
and the millisecond value `ms`. -/
def UBX_HandleTimeUTC_fields (g : Globals) (t : UBX_nav_timeutc) (ms : Int) : List LogCall :=
  [ Log_WriteInt32 t.year 4 0 '-',
    Log_WriteInt32 t.month 2 0 '-',
    Log_WriteInt32 t.day 2 0 'T',
    Log_WriteInt32 t.hour 2 0 ':',
    Log_WriteInt32 t.min 2 0 ':',
    Log_WriteInt32 t.sec 2 0 '.',
    Log_WriteInt32 ms 2 0 'Z',
    Log_WriteChar ',',
    Log_WriteInt32 g.UBX_nav_pos_llh_saved.lat 7 1 ',',
    Log_WriteInt32 g.UBX_nav_pos_llh_saved.lon 7 1 ',',
    Log_WriteInt32 g.UBX_nav_pos_llh_saved.hMSL 3 1 ',',
    Log_WriteInt32 g.UBX_nav_velned_saved.velN 2 1 ',',
    Log_WriteInt32 g.UBX_nav_velned_saved.velE 2 1 ',',
    Log_WriteInt32 g.UBX_nav_velned_saved.velD 2 1 ',',
    Log_WriteInt32 g.UBX_nav_pos_llh_saved.hAcc 3 1 ',',
    Log_WriteInt32 g.UBX_nav_pos_llh_saved.vAcc 3 1 ',',
    Log_WriteInt32 g.UBX_nav_velned_saved.sAcc 2 1 ',',
    Log_WriteInt32 g.UBX_nav_sol_saved.gpsFix 0 0 ',',
    Log_WriteInt32 g.UBX_nav_sol_saved.numSV 0 0 '\r',
    Log_WriteChar '\n' ]

/-- `UBX_HandleTimeUTC()` with the payload buffer `payload`: the updated
variables and the calls made to the power and log collaborators, in order.
`ms` is computed in `int32_t`. -/
def UBX_HandleTimeUTC (cfg : Config) (g : Globals) (payload : List Nat) :
    Globals × List LogCall :=
  let nav_timeutc := UBX_nav_timeutc.ofPayload payload
  if g.UBX_nav_sol_saved.gpsFix = 0x03 ∧
      g.UBX_nav_velned_saved.sAcc < cfg.UBX_sAccThreshold then
    let init :=
      if g.initializeLog ≠ 0 then
        [Log_Init nav_timeutc.year nav_timeutc.month nav_timeutc.day
          nav_timeutc.hour nav_timeutc.min nav_timeutc.sec]
      else []
    let g1 := if g.initializeLog ≠ 0 then { g with initializeLog := 0 } else g
    let ms := wrap32 (Int.tdiv (wrap32 (nav_timeutc.nano + 5000000)) 10000000)
    (g1, [Power_Hold] ++ init ++ UBX_HandleTimeUTC_fields g nav_timeutc ms ++
      [Log_Flush, Power_Release])
  else
    (g, [])

/-- A call to a collaborator made while a frame is dispatched. -/
inductive Effect where
  | tone (c : ToneCall)
  | log (c : LogCall)
  deriving DecidableEq, Repr

/-- `UBX_HandleMessage()` for the delivered frame held by the decoder `d`
(`UBX_msg_class`, `UBX_msg_id`, `UBX_payload`). -/
def UBX_HandleMessage (tone : Tone_h) (cfg : Config) (g : Globals) (d : Decoder) :
    Option (Globals × List Effect) :=
  if d.UBX_msg_class = UBX_NAV then
    if d.UBX_msg_id = UBX_NAV_POSLLH then
      some (UBX_HandlePosition g d.UBX_payload, [])
    else if d.UBX_msg_id = UBX_NAV_VELNED then
      match UBX_HandleVelocity tone cfg g d.UBX_payload with
      | none => none
      | some (g1, calls) => some (g1, calls.map Effect.tone)
    else if d.UBX_msg_id = UBX_NAV_SOL then
      match UBX_HandleNavSol tone cfg g d.UBX_payload with
      | none => none
      | some (g1, calls) => some (g1, calls.map Effect.tone)
    else if d.UBX_msg_id = UBX_NAV_TIMEUTC then
      some ((UBX_HandleTimeUTC cfg g d.UBX_payload).1,
        (UBX_HandleTimeUTC cfg g d.UBX_payload).2.map Effect.log)
    else
      some (g, [])
  else
    some (g, [])

/-- `UBX_Task()` for one receive poll (`none`: `uart_getc()` returned
`UART_NO_DATA`). -/
def UBX_Task (tone : Tone_h) (cfg : Config) (d : Decoder) (g : Globals) (poll : Option Nat) :
    Option (Decoder × Globals × List Effect) :=
  match poll with
  | none => some (d, g, [])
  | some ch =>
    match UBX_HandleByte d (ch % 256) with
    | none => none
    | some (d1, ret) =>
      if ret ≠ 0 then
        match UBX_HandleMessage tone cfg g d1 with
        | none => none
        | some (g1, out) => some (d1, g1, out)
      else
        some (d1, g, [])

/-! ## The frame format in the words of the specification -/

/-- One step of the checksum algorithm of the specification (§4.1):
`a = (a + x) mod 256; b = (b + a) mod 256`. -/
def specChecksumStep (ab : Nat × Nat) (x : Nat) : Nat × Nat :=
  ((ab.1 + x) % 256, (ab.2 + (ab.1 + x) % 256) % 256)

/-- The checksum algorithm of the specification (§4.1): two running sums,
initialised to 0, updated for each byte in order. -/
def specChecksum (xs : List Nat) : Nat × Nat :=
  xs.foldl specChecksumStep (0, 0)

/-- The bytes the checksum runs over: class, id, length low byte, length
high byte, payload bytes. -/
def specBody (c i : Nat) (p : List Nat) : List Nat :=
  [c, i, p.length % 256, p.length / 256] ++ p

/-- The wire frame layout of the specification (§6):
`[0xB5][0x62][class][id][length:2, little-endian][payload][ckA][ckB]`. -/
def specFrame (c i : Nat) (p : List Nat) : List Nat :=
  [0xB5, 0x62] ++ specBody c i p ++
    [(specChecksum (specBody c i p)).1, (specChecksum (specBody c i p)).2]

/-! ## Definitions used to state and prove the properties -/

/-- Class, id, the two length bytes and the first `n` buffered payload bytes
of the frame the decoder is working on. -/
def frameBody (d : Decoder) (n : Nat) : List Nat :=
  [d.UBX_msg_class, d.UBX_msg_id, d.UBX_payload_len % 256, d.UBX_payload_len / 256] ++
    d.UBX_payload.take n

/-- Invariant of the decoder after it has consumed the bytes `pre`: the
state records how much of a frame has just gone by, the running sums are the
checksum of that part, and the write cursor is inside the frame. -/
def DecInv (d : Decoder) (pre : List Nat) : Prop :=
  d.UBX_payload.length = 64 ∧
  match d.state with
  | st_sync_1 => True
  | st_sync_2 => [0xB5] <:+ pre
  | st_class => [0xB5, 0x62] <:+ pre
  | st_id => [0xB5, 0x62, d.UBX_msg_class] <:+ pre ∧
      (d.ck_a, d.ck_b) = specChecksum [d.UBX_msg_class]
  | st_length_1 => [0xB5, 0x62, d.UBX_msg_class, d.UBX_msg_id] <:+ pre ∧
      (d.ck_a, d.ck_b) = specChecksum [d.UBX_msg_class, d.UBX_msg_id]
  | st_length_2 => [0xB5, 0x62, d.UBX_msg_class, d.UBX_msg_id, d.UBX_payload_len] <:+ pre ∧
      (d.ck_a, d.ck_b) = specChecksum [d.UBX_msg_class, d.UBX_msg_id, d.UBX_payload_len] ∧
      d.UBX_payload_len < 256
  | st_payload => ([0xB5, 0x62] ++ frameBody d d.index) <:+ pre ∧
      (d.ck_a, d.ck_b) = specChecksum (frameBody d d.index) ∧
      d.index < d.UBX_payload_len ∧ d.UBX_payload_len ≤ 64
  | st_ck_a => ([0xB5, 0x62] ++ frameBody d d.UBX_payload_len) <:+ pre ∧
      (d.ck_a, d.ck_b) = specChecksum (frameBody d d.UBX_payload_len) ∧
      d.UBX_payload_len ≤ 64
  | st_ck_b => ([0xB5, 0x62] ++ frameBody d d.UBX_payload_len ++ [d.ck_a]) <:+ pre ∧
      (d.ck_a, d.ck_b) = specChecksum (frameBody d d.UBX_payload_len) ∧
      d.UBX_payload_len ≤ 64

/-- What holds of the decoder and the bytes `pre` consumed so far when the
call for the last byte of `pre` returned 1. -/
def Delivered (d : Decoder) (pre : List Nat) : Prop :=
  d.UBX_payload_len ≤ 64 ∧
  ([0xB5, 0x62] ++ frameBody d d.UBX_payload_len ++
    [(specChecksum (frameBody d d.UBX_payload_len)).1,
     (specChecksum (frameBody d d.UBX_payload_len)).2]) <:+ pre

/-- A frame in which bit `j` of payload byte `k` has been flipped; the payload
starts at offset 6 of the frame, the two checksum bytes are left alone. -/
def flipPayloadBit (frame : List Nat) (k j : Nat) : List Nat :=
  frame.set (k + 6) (frame.getD (k + 6) 0 ^^^ 2 ^ j)

/-- The write cursor of a decoder in the payload state is inside the frame,
and the frame fits the buffer. -/
def CursorOk (d : Decoder) : Prop :=
  d.state = st_payload → d.index < d.UBX_payload_len ∧ d.UBX_payload_len ≤ 64

/-- The decoder as it stands right after each call of `UBX_HandleByte` that
returned non-zero, in order, when the bytes of a stream are fed to it: the
frames delivered. -/
def deliveries (d : Decoder) : List Nat → Option (List Decoder)
  | [] => some []
  | ch :: rest =>
    match UBX_HandleByte d ch with
    | none => none
    | some (d1, ret) =>
      match deliveries d1 rest with
      | none => none
      | some ds => some (if ret ≠ 0 then d1 :: ds else ds)

/-- The bytes received in a sequence of polls, as `UBX_WaitForAck` hands them
to `UBX_HandleByte`. -/
def Polls.bytes (polls : Polls) : List Nat :=
  polls.filterMap (fun x => x.map (fun ch => ch % 256))

/-- The test `UBX_WaitForAck` applies to a delivered frame: class `UBX_ACK`, id
`UBX_ACK_ACK` or `UBX_ACK_NAK`, and `UBX_payload[0]`, `UBX_payload[1]` equal to
the class and id of the request. -/
def isReply (msg_class msg_id : Nat) (d : Decoder) : Bool :=
  decide (d.UBX_msg_class = UBX_ACK ∧ (d.UBX_msg_id = UBX_ACK_ACK ∨ d.UBX_msg_id = UBX_ACK_NAK) ∧
    d.UBX_payload.getD 0 0 = msg_class ∧ d.UBX_payload.getD 1 0 = msg_id)

/-- The payload of a delivered frame: the first `UBX_payload_len` bytes of the
buffer. -/
def framePayload (d : Decoder) : List Nat := d.UBX_payload.take d.UBX_payload_len

/-- The test on a delivered frame in the words of the handshake claim: class
0x05, id 0x01 or 0x00, and the first two payload bytes of the frame equal to
the class and id of the request. -/
def isReplyFrame (msg_class msg_id : Nat) (d : Decoder) : Bool :=
  decide (d.UBX_msg_class = 0x05 ∧ (d.UBX_msg_id = 0x01 ∨ d.UBX_msg_id = 0x00) ∧
    (framePayload d).take 2 = [msg_class, msg_id])

/-- The result the handshake draws from the frames delivered during the wait:
that of the first frame passing `isReply`, 1 for an acknowledgment, 0 for a
negative acknowledgment, and 0 when there is none. -/
def handshakeResult (msg_class msg_id : Nat) (ds : List Decoder) : Nat :=
  match ds.find? (isReply msg_class msg_id) with
  | some f => if f.UBX_msg_id = UBX_ACK_ACK then 1 else 0
  | none => 0

/-- A 64-byte payload buffer holding a `UBX_nav_velned` record with the given
`velD` and `gSpeed` bytes (little-endian) and zero elsewhere. -/
def velPayload (velD gSpeed : List Nat) : List Nat :=
  List.replicate 12 0 ++ velD ++ List.replicate 4 0 ++ gSpeed ++ List.replicate 40 0

/-- The configuration of the mode-9 example of the specification: primary
mode 1 (vertical speed), primary range 0..1000, sampling period 200. -/
def exampleConfig : Config := { UBX_mode := 1, UBX_min := 0, UBX_max := 1000, UBX_threshold := 100 }

/-- The variables before the update of the mode-9 example: the two previous
primary values are 120 and 80. -/
def exampleGlobals : Globals := { Globals.init with x0 := 120, x1 := 80 }

/-- The value `x` is representable as `int32_t`. -/
def IsInt32 (x : Int) : Prop := -2147483648 ≤ x ∧ x < 2147483648

/-- A velocity record with the given `velD` and `gSpeed` and zero elsewhere. -/
def velRecord (velD : Int) (gSpeed : Nat) : UBX_nav_velned :=
  { iTOW := 0, velN := 0, velE := 0, velD := velD, speed := 0, gSpeed := gSpeed,
    heading := 0, sAcc := 0, cAcc := 0 }

/-- Successive calls of `UBX_HandleNavSol`, one for each payload buffer of
the list, in order: the final variables and all tone calls made. -/
def navSolUpdates (tone : Tone_h) (cfg : Config) (g : Globals) :
    List (List Nat) → Option (Globals × List ToneCall)
  | [] => some (g, [])
  | p :: ps =>
    match UBX_HandleNavSol tone cfg g p with
    | none => none
    | some (g1, c1) =>
      match navSolUpdates tone cfg g1 ps with
      | none => none
      | some (g2, c2) => some (g2, c1 ++ c2)

/-- Whether a tone call is the confirmation beep. -/
def isBeep : ToneCall → Bool
  | Tone_Beep _ _ => true
  | _ => false

/-- A 64-byte payload buffer holding a `UBX_nav_sol` record with the given
`gpsFix` and zero elsewhere. -/
def solPayload (gpsFix : Nat) : List Nat :=
  List.replicate 10 0 ++ [gpsFix] ++ List.replicate 53 0

/-- `UBX_HandleMessage` for each delivered frame of a list, in order: the
final variables and all calls made to the collaborators. -/
def dispatchAll (tone : Tone_h) (cfg : Config) (g : Globals) :
    List Decoder → Option (Globals × List Effect)
  | [] => some (g, [])
  | d :: ds =>
    match UBX_HandleMessage tone cfg g d with
    | none => none
    | some (g1, e1) =>
      match dispatchAll tone cfg g1 ds with
      | none => none
      | some (g2, e2) => some (g2, e1 ++ e2)

/-- Whether a delivered frame is a NavSolution update with `gpsFix = 3`. -/
def isFixSol (d : Decoder) : Bool :=
  decide (d.UBX_msg_class = UBX_NAV ∧ d.UBX_msg_id = UBX_NAV_SOL ∧
    (UBX_nav_sol.ofPayload d.UBX_payload).gpsFix = 3)

/-- Values for the constants of `Tone.h` used in the concrete examples. -/
def exampleTone : Tone_h :=
  { TONE_RATE_FLATLINE := 65535, TONE_MAX_PITCH := 100, TONE_LENGTH_125_MS := 1 }

/-- A delivered frame of class `UBX_NAV` with the given id and payload
buffer. -/
def navFrame (id : Nat) (payload : List Nat) : Decoder :=
  { Decoder.init with UBX_msg_class := UBX_NAV, UBX_msg_id := id, UBX_payload := payload }

/-- The divisors of the mode-9 computation of `UBX_HandleVelocity` are non-zero
for the payload buffer `payload`: `2 * UBX_rate` (16-bit) and the width of the
gated primary range. -/
def Mode9Defined (cfg : Config) (payload : List Nat) : Prop :=
  cfg.UBX_mode_2 = 9 → (2 * cfg.UBX_rate) % 65536 ≠ 0 ∧
    ABS (wrap32 ((UBX_HandleVelocity_gate cfg (UBX_nav_velned.ofPayload payload)).max_1 -
      (UBX_HandleVelocity_gate cfg (UBX_nav_velned.ofPayload payload)).min_1)) ≠ 0

/-- The gating condition of `UBX_HandleTimeUTC`: the stored `gpsFix` is 3 and
the stored `sAcc` is below `UBX_sAccThreshold`. -/
def logGate (cfg : Config) (g : Globals) : Bool :=
  decide (g.UBX_nav_sol_saved.gpsFix = 0x03 ∧
    g.UBX_nav_velned_saved.sAcc < cfg.UBX_sAccThreshold)

/-- The value of `ms` in `UBX_HandleTimeUTC` for the payload buffer
`payload`. -/
def timeUTC_ms (payload : List Nat) : Int :=
  wrap32 (Int.tdiv (wrap32 ((UBX_nav_timeutc.ofPayload payload).nano + 5000000)) 10000000)

/-- One log record without the session initialisation: power hold, the field
writes, flush, power release. -/
def logRecord (g : Globals) (payload : List Nat) : List LogCall :=
  Power_Hold :: (UBX_HandleTimeUTC_fields g (UBX_nav_timeutc.ofPayload payload)
    (timeUTC_ms payload) ++ [Log_Flush, Power_Release])

/-- The session-initialisation call for the payload buffer `payload`. -/
def logInit (payload : List Nat) : LogCall :=
  Log_Init (UBX_nav_timeutc.ofPayload payload).year (UBX_nav_timeutc.ofPayload payload).month
    (UBX_nav_timeutc.ofPayload payload).day (UBX_nav_timeutc.ofPayload payload).hour
    (UBX_nav_timeutc.ofPayload payload).min (UBX_nav_timeutc.ofPayload payload).sec

/-- A sequence of NavTimeUTC updates handled by `UBX_HandleTimeUTC`, each given
by the stored records at the time of the update and the payload buffer;
`initializeLog` is carried from one update to the next.  The result lists the
calls made by each update. -/
def timeUTCUpdates (cfg : Config) : Nat → List (Globals × List Nat) → List (List LogCall)
  | _, [] => []
  | il, (g, p) :: rest =>
    (UBX_HandleTimeUTC cfg { g with initializeLog := il } p).2 ::
      timeUTCUpdates cfg (UBX_HandleTimeUTC cfg { g with initializeLog := il } p).1.initializeLog
        rest

/-- Whether a call is the session initialisation `Log_Init`. -/
def isLogInit : LogCall → Bool
  | Log_Init _ _ _ _ _ _ => true
  | _ => false

/-- A 64-byte payload buffer holding a NavTimeUTC record with the given `nano`
(4 bytes) and `year` (2 bytes), little-endian, and the given month, day, hour,
minute and second. -/
def timePayload (nano year : List Nat) (month day hour min sec : Nat) : List Nat :=
  List.replicate 8 0 ++ nano ++ year ++ [month, day, hour, min, sec] ++ List.replicate 45 0

/-- Stored records with `gpsFix = 3`, seven satellites and `sAcc = 50`. -/
def exampleLogGlobals : Globals :=
  { Globals.init with
    UBX_nav_sol_saved := { gpsFix := 3, numSV := 7 },
    UBX_nav_velned_saved := { Globals.init.UBX_nav_velned_saved with sAcc := 50 } }

/-! ## Lemmas: encoder -/

theorem specChecksum_append_singleton (xs : List Nat) (x : Nat) :
    specChecksum (xs ++ [x]) = specChecksumStep (specChecksum xs) x := by
  simp [specChecksum, List.foldl_append]

theorem foldl_SEND_BYTE (xs : List Nat) (t : Tx) :
    xs.foldl SEND_BYTE t =
      { out := t.out ++ xs,
        ck_a := (xs.foldl specChecksumStep (t.ck_a, t.ck_b)).1,
        ck_b := (xs.foldl specChecksumStep (t.ck_a, t.ck_b)).2 } := by
  induction xs generalizing t with
  | nil => simp
  | cons x xs ih =>
    rw [List.foldl_cons, ih]
    simp [SEND_BYTE, specChecksumStep]

theorem foldl_range_getD_aux {β : Type} (f : β → Nat → β) (p : List Nat) :
    ∀ (pre : List Nat) (t : β),
      (List.range' pre.length p.length).foldl (fun t i => f t ((pre ++ p).getD i 0)) t
        = p.foldl f t := by
  induction p with
  | nil => intro pre t; simp
  | cons a q ih =>
    intro pre t
    have h := ih (pre ++ [a]) (f t a)
    simp only [List.length_append, List.length_singleton, List.append_assoc,
      List.singleton_append] at h
    simp only [List.length_cons, List.range'_succ, List.foldl_cons]
    have e : (pre ++ a :: q).getD pre.length 0 = a := by
      rw [List.getD_eq_getElem?_getD, List.getElem?_append_right (Nat.le_refl _)]
      simp
    rw [e, h]

theorem foldl_range_getD {β : Type} (f : β → Nat → β) (p : List Nat) (t : β) :
    (List.range p.length).foldl (fun t i => f t (p.getD i 0)) t = p.foldl f t := by
  have h := foldl_range_getD_aux f p [] t
  simpa [List.range_eq_range'] using h

/-- The transmitted bytes are the frame of the specification. -/
theorem UBX_SendMessage_tx_eq_specFrame (c i : Nat) (p : List Nat)
    (hlen : p.length < 65536) :
    UBX_SendMessage_tx c i p.length p = specFrame c i p := by
  have h256 : p.length / 256 % 256 = p.length / 256 :=
    Nat.mod_eq_of_lt (by omega)
  unfold UBX_SendMessage_tx
  simp only [foldl_range_getD SEND_BYTE p, foldl_SEND_BYTE]
  simp [SEND_BYTE, specFrame, specBody, specChecksum, specChecksumStep, h256]

/-! ## Lemmas: decoder -/

theorem feedBytes_cons_some {d d1 d2 : Decoder} {x r : Nat} {xs rs : List Nat}
    (h1 : UBX_HandleByte d x = some (d1, r)) (h2 : feedBytes d1 xs = some (d2, rs)) :
    feedBytes d (x :: xs) = some (d2, r :: rs) := by
  simp [feedBytes, h1, h2]

theorem feedBytes_append_some (xs ys : List Nat) :
    ∀ (d d1 d2 : Decoder) (r1 r2 : List Nat),
      feedBytes d xs = some (d1, r1) → feedBytes d1 ys = some (d2, r2) →
      feedBytes d (xs ++ ys) = some (d2, r1 ++ r2) := by
  induction xs with
  | nil =>
    intro d d1 d2 r1 r2 h1 h2
    simp only [feedBytes, Option.some.injEq, Prod.mk.injEq] at h1
    obtain ⟨rfl, rfl⟩ := h1
    simpa using h2
  | cons x xs ih =>
    intro d d1 d2 r1 r2 h1 h2
    simp only [feedBytes] at h1
    cases hx : UBX_HandleByte d x with
    | none => simp [hx] at h1
    | some v =>
      obtain ⟨e, r⟩ := v
      cases hxs : feedBytes e xs with
      | none => simp [hx, hxs] at h1
      | some w =>
        obtain ⟨e2, rs⟩ := w
        simp only [hx, hxs, Option.some.injEq, Prod.mk.injEq] at h1
        obtain ⟨rfl, rfl⟩ := h1
        exact feedBytes_cons_some hx (ih e e2 d2 rs r2 hxs h2)

theorem UBX_HandleByte_payload (d : Decoder) (x : Nat) (hs : d.state = st_payload)
    (hidx : d.index < 64) :
    UBX_HandleByte d x = some
      ({ d with UBX_payload := d.UBX_payload.set d.index x,
                index := d.index + 1,
                ck_a := (specChecksumStep (d.ck_a, d.ck_b) x).1,
                ck_b := (specChecksumStep (d.ck_a, d.ck_b) x).2,
                state := if d.index + 1 = d.UBX_payload_len then st_ck_a else st_payload }, 0) := by
  have h : (d.index + 1) % 65536 = d.index + 1 := Nat.mod_eq_of_lt (by omega)
  unfold UBX_HandleByte
  rw [hs]
  simp only [h, specChecksumStep, UBX_MAX_PAYLOAD_LEN, hidx, if_true]
  split <;> simp [hs]

theorem feedBytes_payload (xs : List Nat) :
    ∀ d : Decoder, d.state = st_payload → xs ≠ [] →
      d.index + xs.length = d.UBX_payload_len → d.UBX_payload_len ≤ 64 →
      d.UBX_payload.length = 64 →
      ∃ d1, feedBytes d xs = some (d1, List.replicate xs.length 0) ∧
        d1.state = st_ck_a ∧
        (d1.ck_a, d1.ck_b) = xs.foldl specChecksumStep (d.ck_a, d.ck_b) ∧
        d1.UBX_msg_class = d.UBX_msg_class ∧ d1.UBX_msg_id = d.UBX_msg_id ∧
        d1.UBX_payload_len = d.UBX_payload_len ∧
        d1.UBX_payload = d.UBX_payload.take d.index ++ xs ++
              d.UBX_payload.drop (d.index + xs.length) := by
  induction xs with
  | nil => intro d _ h; exact absurd rfl h
  | cons x rest ih =>
    intro d hs _ hlen hmax hbuf
    simp only [List.length_cons] at hlen
    have hidx : d.index < 64 := by omega
    have hstep := UBX_HandleByte_payload d x hs hidx
    have hset : d.UBX_payload.set d.index x =
        d.UBX_payload.take d.index ++ x :: d.UBX_payload.drop (d.index + 1) := by
      rw [List.set_eq_take_append_cons_drop, if_pos (by omega)]
    by_cases hrest : rest = []
    · subst hrest
      simp only [List.length_nil, Nat.zero_add] at hlen
      rw [if_pos hlen] at hstep
      refine ⟨_, feedBytes_cons_some hstep rfl, rfl, ?_, rfl, rfl, rfl, ?_⟩
      · simp
      · simp [hset]
    · have hpos : 0 < rest.length := List.length_pos.mpr hrest
      rw [if_neg (by omega)] at hstep
      obtain ⟨d1, hf, h1, h2, h3, h4, h5, h6⟩ := ih
        { d with UBX_payload := d.UBX_payload.set d.index x,
                 index := d.index + 1,
                 ck_a := (specChecksumStep (d.ck_a, d.ck_b) x).1,
                 ck_b := (specChecksumStep (d.ck_a, d.ck_b) x).2,
                 state := st_payload } rfl hrest
        (show d.index + 1 + rest.length = d.UBX_payload_len by omega) hmax
        (by simp [hbuf])
      refine ⟨d1, feedBytes_cons_some hstep hf, h1, ?_, h3, h4, h5, ?_⟩
      · rw [h2]; simp
      · rw [h6]
        simp only [hset]
        have e1 : List.take (d.index + 1)
            (List.take d.index d.UBX_payload ++ x :: List.drop (d.index + 1) d.UBX_payload)
              = List.take d.index d.UBX_payload ++ [x] := by
          rw [List.take_append_eq_append_take]
          simp [List.length_take, hbuf, Nat.min_eq_left (show d.index ≤ 64 by omega)]
        have e2 : List.drop (d.index + 1 + rest.length)
            (List.take d.index d.UBX_payload ++ x :: List.drop (d.index + 1) d.UBX_payload)
              = List.drop (d.index + (rest.length + 1)) d.UBX_payload := by
          rw [List.drop_append_eq_append_drop]
          have a : d.index + 1 + rest.length - (List.take d.index d.UBX_payload).length
              = rest.length + 1 := by
            rw [List.length_take, hbuf]; omega
          rw [a, List.drop_succ_cons, List.drop_drop,
            List.drop_eq_nil_of_le (by rw [List.length_take]; omega), List.nil_append]
          congr 1; omega
        rw [e1, e2]
        simp

theorem specBody_small (c i : Nat) (p : List Nat) (hp : p.length ≤ 64) :
    specBody c i p = [c, i, p.length, 0] ++ p := by
  have h1 : p.length % 256 = p.length := Nat.mod_eq_of_lt (by omega)
  have h2 : p.length / 256 = 0 := Nat.div_eq_of_lt (by omega)
  simp [specBody, h1, h2]

theorem feedBytes_header (d : Decoder) (c i n : Nat) (hs : d.state = st_sync_1)
    (hc : c < 256) (hn : n ≤ 64) :
    feedBytes d [0xB5, 0x62, c, i, n, 0] = some
      ({ d with state := if n = 0 then st_ck_a else st_payload,
                index := if n = 0 then d.index else 0,
                UBX_msg_class := c, UBX_msg_id := i, UBX_payload_len := n,
                ck_a := (specChecksum [c, i, n, 0]).1,
                ck_b := (specChecksum [c, i, n, 0]).2 }, [0, 0, 0, 0, 0, 0]) := by
  have h1 : n % 65536 = n := Nat.mod_eq_of_lt (by omega)
  have h2 : c % 256 = c := Nat.mod_eq_of_lt hc
  by_cases h0 : n = 0
  · subst h0
    simp [feedBytes, UBX_HandleByte, hs, specChecksum, specChecksumStep, h2]
  · have h3 : n ≤ 64 := hn
    simp [feedBytes, UBX_HandleByte, hs, specChecksum, specChecksumStep, h1, h2, h0, h3]

/-- Feeding sync bytes, header and payload of a frame leaves the decoder
waiting for the first checksum byte, with the running sums of the frame. -/
theorem feedBytes_body (d : Decoder) (c i : Nat) (p : List Nat)
    (hs : d.state = st_sync_1) (hbuf : d.UBX_payload.length = 64)
    (hc : c < 256) (hp : p.length ≤ 64) :
    ∃ d1, feedBytes d ([0xB5, 0x62] ++ specBody c i p) =
          some (d1, List.replicate (p.length + 6) 0) ∧
      d1.state = st_ck_a ∧
      (d1.ck_a, d1.ck_b) = specChecksum (specBody c i p) ∧
      d1.UBX_msg_class = c ∧ d1.UBX_msg_id = i ∧ d1.UBX_payload_len = p.length ∧
      d1.UBX_payload.take p.length = p ∧ d1.UBX_payload.length = 64 := by
  have hh := feedBytes_header d c i p.length hs hc hp
  have hb : [0xB5, 0x62] ++ specBody c i p = [0xB5, 0x62, c, i, p.length, 0] ++ p := by
    rw [specBody_small c i p hp]; rfl
  have hck : specChecksum (specBody c i p)
      = p.foldl specChecksumStep (specChecksum [c, i, p.length, 0]) := by
    rw [specBody_small c i p hp]; simp [specChecksum, List.foldl_append]
  rw [hb, hck]
  by_cases h0 : p = []
  · subst h0
    simp only [List.length_nil, if_true] at hh
    simp only [List.length_nil, List.append_nil, List.foldl_nil, List.take_nil]
    exact ⟨_, hh, rfl, rfl, rfl, rfl, rfl, rfl, hbuf⟩
  · have hpos : 0 < p.length := List.length_pos.mpr h0
    have hne : ¬ p.length = 0 := by omega
    simp only [hne, if_false] at hh
    obtain ⟨d1, hf, h1, h2, h3, h4, h5, h6⟩ := feedBytes_payload p
      { d with state := st_payload, index := 0,
               UBX_msg_class := c, UBX_msg_id := i, UBX_payload_len := p.length,
               ck_a := (specChecksum [c, i, p.length, 0]).1,
               ck_b := (specChecksum [c, i, p.length, 0]).2 }
      rfl h0 (by simp) hp hbuf
    refine ⟨d1, ?_, h1, ?_, h3, h4, h5, ?_, ?_⟩
    · have := feedBytes_append_some _ _ _ _ _ _ _ hh hf
      simpa [List.replicate_succ, ← List.replicate_add, Nat.add_comm] using this
    · rw [h2]
    · rw [h6]; simp
    · rw [h6]; simp [hbuf]; omega

/-- Feeding a whole frame of the specification to a decoder that awaits the
first sync byte: every call returns 0 except the last, which returns 1, and
class, id, length and payload are those of the frame. -/
theorem feedBytes_specFrame (d : Decoder) (c i : Nat) (p : List Nat)
    (hs : d.state = st_sync_1) (hbuf : d.UBX_payload.length = 64)
    (hc : c < 256) (hp : p.length ≤ 64) :
    ∃ d1, feedBytes d (specFrame c i p) =
          some (d1, List.replicate (p.length + 7) 0 ++ [1]) ∧
      d1.state = st_sync_1 ∧
      d1.UBX_msg_class = c ∧ d1.UBX_msg_id = i ∧ d1.UBX_payload_len = p.length ∧
      d1.UBX_payload.take p.length = p ∧ d1.UBX_payload.length = 64 := by
  obtain ⟨d1, hf, h1, h2, h3, h4, h5, h6, h7⟩ := feedBytes_body d c i p hs hbuf hc hp
  have ha : d1.ck_a = (specChecksum (specBody c i p)).1 := by rw [← h2]
  have hb : d1.ck_b = (specChecksum (specBody c i p)).2 := by rw [← h2]
  have htail : feedBytes d1
      [(specChecksum (specBody c i p)).1, (specChecksum (specBody c i p)).2]
      = some ({ d1 with state := st_sync_1 }, [0, 1]) := by
    simp [feedBytes, UBX_HandleByte, h1, ha, hb]
  refine ⟨{ d1 with state := st_sync_1 }, ?_, rfl, h3, h4, h5, h6, h7⟩
  have := feedBytes_append_some _ _ _ _ _ _ _ hf htail
  rw [specFrame, this]
  simp [List.replicate_succ', List.append_assoc]

theorem suffix_snoc {l pre : List Nat} (b : Nat) (h : l <:+ pre) :
    (l ++ [b]) <:+ (pre ++ [b]) := by
  obtain ⟨t, rfl⟩ := h
  exact ⟨t, by simp⟩

theorem take_succ_set (buf : List Nat) (k b : Nat) (hk : k < buf.length) :
    (buf.set k b).take (k + 1) = buf.take k ++ [b] := by
  rw [List.set_eq_take_append_cons_drop, if_pos hk, List.take_append_eq_append_take]
  have a : k + 1 - (List.take k buf).length = 1 := by
    rw [List.length_take]; omega
  rw [a, List.take_of_length_le (by rw [List.length_take]; omega)]
  simp

theorem frameBody_step (d : Decoder) (b : Nat) (st : HandleByteState) (a1 a2 idx len : Nat)
    (hk : d.index < d.UBX_payload.length) (hl : len = d.UBX_payload_len) :
    frameBody { state := st, ck_a := a1, ck_b := a2, index := idx,
                UBX_msg_class := d.UBX_msg_class, UBX_msg_id := d.UBX_msg_id,
                UBX_payload_len := len,
                UBX_payload := d.UBX_payload.set d.index b } (d.index + 1)
      = frameBody d d.index ++ [b] := by
  simp [frameBody, hl, take_succ_set _ _ _ hk]

theorem DecInv_init : DecInv Decoder.init [] := by
  simp [DecInv, Decoder.init]

set_option maxHeartbeats 1000000 in
theorem DecInv_step (d : Decoder) (pre : List Nat) (b : Nat)
    (hinv : DecInv d pre) (hb : b < 256) :
    ∃ d1 r, UBX_HandleByte d b = some (d1, r) ∧ DecInv d1 (pre ++ [b]) ∧
      (r = 0 ∨ r = 1) ∧ (r = 1 → Delivered d1 (pre ++ [b])) := by
  obtain ⟨hbuf, hst⟩ := hinv
  have hbm : b % 256 = b := Nat.mod_eq_of_lt hb
  cases hs : d.state with
  | st_sync_1 =>
    by_cases h : b = 0xB5
    · subst h
      refine ⟨{ d with state := st_sync_2 }, 0, by simp [UBX_HandleByte, hs], ?_, Or.inl rfl, by simp⟩
      exact ⟨hbuf, ⟨pre, rfl⟩⟩
    · refine ⟨d, 0, by simp [UBX_HandleByte, hs, h], ?_, Or.inl rfl, by simp⟩
      refine ⟨hbuf, ?_⟩
      rw [hs]; trivial
  | st_sync_2 =>
    rw [hs] at hst
    by_cases h : b = 0x62
    · subst h
      refine ⟨{ d with state := st_class }, 0, by simp [UBX_HandleByte, hs], ?_, Or.inl rfl, by simp⟩
      exact ⟨hbuf, suffix_snoc _ hst⟩
    · refine ⟨{ d with state := st_sync_1 }, 0, by simp [UBX_HandleByte, hs, h], ?_, Or.inl rfl, by simp⟩
      exact ⟨hbuf, trivial⟩
  | st_class =>
    rw [hs] at hst
    refine ⟨{ d with UBX_msg_class := b, ck_a := b, ck_b := b, state := st_id }, 0,
      by simp [UBX_HandleByte, hs], ?_, Or.inl rfl, by simp⟩
    refine ⟨hbuf, suffix_snoc _ hst, ?_⟩
    simp [specChecksum, specChecksumStep, hbm]
  | st_id =>
    rw [hs] at hst
    obtain ⟨h1, h2⟩ := hst
    refine ⟨{ d with UBX_msg_id := b, ck_a := (d.ck_a + b) % 256,
                     ck_b := (d.ck_b + (d.ck_a + b) % 256) % 256, state := st_length_1 }, 0,
      by simp [UBX_HandleByte, hs], ?_, Or.inl rfl, by simp⟩
    refine ⟨hbuf, suffix_snoc _ h1, ?_⟩
    show _ = specChecksum ([d.UBX_msg_class] ++ [b])
    rw [specChecksum_append_singleton, ← h2]; rfl
  | st_length_1 =>
    rw [hs] at hst
    obtain ⟨h1, h2⟩ := hst
    refine ⟨{ d with UBX_payload_len := b, ck_a := (d.ck_a + b) % 256,
                     ck_b := (d.ck_b + (d.ck_a + b) % 256) % 256, state := st_length_2 }, 0,
      by simp [UBX_HandleByte, hs], ?_, Or.inl rfl, by simp⟩
    refine ⟨hbuf, suffix_snoc _ h1, ?_, hb⟩
    show _ = specChecksum ([d.UBX_msg_class, d.UBX_msg_id] ++ [b])
    rw [specChecksum_append_singleton, ← h2]; rfl
  | st_length_2 =>
    rw [hs] at hst
    obtain ⟨h1, h2, h3⟩ := hst
    have hlen : (d.UBX_payload_len + b * 256) % 65536 = d.UBX_payload_len + b * 256 :=
      Nat.mod_eq_of_lt (by omega)
    have hck : ((d.ck_a + b) % 256, (d.ck_b + (d.ck_a + b) % 256) % 256)
        = specChecksum [d.UBX_msg_class, d.UBX_msg_id, d.UBX_payload_len, b] := by
      show _ = specChecksum ([d.UBX_msg_class, d.UBX_msg_id, d.UBX_payload_len] ++ [b])
      rw [specChecksum_append_singleton, ← h2]; rfl
    have hsuf := suffix_snoc b h1
    by_cases hz : d.UBX_payload_len + b * 256 = 0
    · have hl0 : d.UBX_payload_len = 0 := by omega
      have hb0 : b = 0 := by omega
      refine ⟨{ d with UBX_payload_len := 0, ck_a := (d.ck_a + b) % 256,
                       ck_b := (d.ck_b + (d.ck_a + b) % 256) % 256, state := st_ck_a }, 0,
        by simp [UBX_HandleByte, hs, hlen, hz], ?_, Or.inl rfl, by simp⟩
      refine ⟨hbuf, ?_, ?_, by simp⟩
      · simpa [frameBody, hl0, hb0] using hsuf
      · rw [hck]; simp [frameBody, hl0, hb0]
    · by_cases hle : d.UBX_payload_len + b * 256 ≤ 64
      · have hb0 : b = 0 := by omega
        have hm : d.UBX_payload_len % 256 = d.UBX_payload_len := Nat.mod_eq_of_lt h3
        have hd : d.UBX_payload_len / 256 = 0 := Nat.div_eq_of_lt h3
        refine ⟨{ d with UBX_payload_len := d.UBX_payload_len + b * 256,
                         ck_a := (d.ck_a + b) % 256,
                         ck_b := (d.ck_b + (d.ck_a + b) % 256) % 256,
                         state := st_payload, index := 0 }, 0,
          by simp [UBX_HandleByte, hs, hlen, hz, hle], ?_, Or.inl rfl, by simp⟩
        refine ⟨hbuf, ?_, ?_, by simp; omega, hle⟩
        · simpa [frameBody, hb0, hm, hd] using hsuf
        · rw [hck]; simp [frameBody, hb0, hm, hd]
      · refine ⟨{ d with UBX_payload_len := d.UBX_payload_len + b * 256,
                         ck_a := (d.ck_a + b) % 256,
                         ck_b := (d.ck_b + (d.ck_a + b) % 256) % 256,
                         state := st_sync_1 }, 0,
          by simp [UBX_HandleByte, hs, hlen, hz, hle], ?_, Or.inl rfl, by simp⟩
        exact ⟨hbuf, trivial⟩
  | st_payload =>
    rw [hs] at hst
    obtain ⟨h1, h2, h3, h4⟩ := hst
    have hidx : d.index < 64 := by omega
    have hstep := UBX_HandleByte_payload d b hs hidx
    have hk : d.index < d.UBX_payload.length := by omega
    have hck : ((specChecksumStep (d.ck_a, d.ck_b) b).1, (specChecksumStep (d.ck_a, d.ck_b) b).2)
        = specChecksum (frameBody d d.index ++ [b]) := by
      rw [specChecksum_append_singleton, ← h2]
    have hsuf : ([0xB5, 0x62] ++ (frameBody d d.index ++ [b])) <:+ (pre ++ [b]) := by
      have := suffix_snoc b h1
      simpa using this
    refine ⟨_, 0, hstep, ?_, Or.inl rfl, by simp⟩
    refine ⟨by simp [hbuf], ?_⟩
    by_cases he : d.index + 1 = d.UBX_payload_len
    · simp only [he, if_true]
      rw [← he, frameBody_step d b _ _ _ _ _ hk he]
      exact ⟨hsuf, hck, by omega⟩
    · simp only [he, if_false]
      rw [frameBody_step d b _ _ _ _ _ hk rfl]
      exact ⟨hsuf, hck, by omega, h4⟩
  | st_ck_a =>
    rw [hs] at hst
    obtain ⟨h1, h2, h3⟩ := hst
    by_cases h : d.ck_a = b
    · refine ⟨{ d with state := st_ck_b }, 0, by simp [UBX_HandleByte, hs, h], ?_,
        Or.inl rfl, by simp⟩
      subst h
      exact ⟨hbuf, suffix_snoc _ h1, h2, h3⟩
    · refine ⟨{ d with state := st_sync_1 }, 0, by simp [UBX_HandleByte, hs, h], ?_,
        Or.inl rfl, by simp⟩
      exact ⟨hbuf, trivial⟩
  | st_ck_b =>
    rw [hs] at hst
    obtain ⟨h1, h2, h3⟩ := hst
    by_cases h : d.ck_b = b
    · refine ⟨{ d with state := st_sync_1 }, 1, by simp [UBX_HandleByte, hs, h], ?_,
        Or.inr rfl, fun _ => ⟨h3, ?_⟩⟩
      · exact ⟨hbuf, trivial⟩
      · have := suffix_snoc b h1
        have e : frameBody { d with state := st_sync_1 } d.UBX_payload_len
            = frameBody d d.UBX_payload_len := rfl
        show ([0xB5, 0x62] ++ frameBody { d with state := st_sync_1 } d.UBX_payload_len ++ _)
          <:+ (pre ++ [b])
        rw [e, ← h2]
        subst h
        simpa using this
    · refine ⟨{ d with state := st_sync_1 }, 0, by simp [UBX_HandleByte, hs, h], ?_,
        Or.inl rfl, by simp⟩
      exact ⟨hbuf, trivial⟩

set_option maxRecDepth 100000 in
theorem xor_bit_cases : ∀ x < 256, ∀ j < 8,
    x ^^^ 2 ^ j = x + 2 ^ j ∨ (x ^^^ 2 ^ j) + 2 ^ j = x := by
  decide

theorem DecInv_feedBytes (bs : List Nat) :
    ∀ (d : Decoder) (pre : List Nat), DecInv d pre → (∀ b ∈ bs, b < 256) →
      ∃ d1 rets, feedBytes d bs = some (d1, rets) ∧ DecInv d1 (pre ++ bs) ∧
        (rets.getLast? = some 1 → Delivered d1 (pre ++ bs)) := by
  induction bs with
  | nil =>
    intro d pre hinv _
    exact ⟨d, [], rfl, by simpa using hinv, by simp⟩
  | cons b rest ih =>
    intro d pre hinv hb
    obtain ⟨d1, r, hstep, hinv1, _, hdel⟩ :=
      DecInv_step d pre b hinv (hb b (List.mem_cons_self _ _))
    obtain ⟨d2, rs, hrun, hinv2, hdel2⟩ :=
      ih d1 (pre ++ [b]) hinv1 (fun x hx => hb x (List.mem_cons_of_mem _ hx))
    have happ : pre ++ [b] ++ rest = pre ++ b :: rest := by simp
    rw [happ] at hinv2 hdel2
    refine ⟨d2, r :: rs, feedBytes_cons_some hstep hrun, hinv2, ?_⟩
    intro hlast
    cases rs with
    | nil =>
      cases rest with
      | nil =>
        simp only [feedBytes, Option.some.injEq, Prod.mk.injEq] at hrun
        obtain ⟨rfl, _⟩ := hrun
        simp only [List.getLast?_singleton, Option.some.injEq] at hlast
        exact hdel hlast
      | cons y ys =>
        simp only [feedBytes] at hrun
        cases h1 : UBX_HandleByte d1 y with
        | none => simp [h1] at hrun
        | some v =>
          obtain ⟨e, q⟩ := v
          cases h2 : feedBytes e ys with
          | none => simp [h1, h2] at hrun
          | some w => simp [h1, h2] at hrun
    | cons r2 rs2 =>
      rw [List.getLast?_cons_cons] at hlast
      exact hdel2 hlast

theorem foldl_specChecksumStep_fst (xs : List Nat) :
    ∀ a b : Nat, a < 256 → (xs.foldl specChecksumStep (a, b)).1 = (a + xs.sum) % 256 := by
  induction xs with
  | nil => intro a b h; simp; omega
  | cons x xs ih =>
    intro a b _
    simp only [List.foldl_cons, List.sum_cons, specChecksumStep]
    rw [ih _ _ (Nat.mod_lt _ (by decide))]
    omega

theorem specChecksum_fst (xs : List Nat) : (specChecksum xs).1 = xs.sum % 256 := by
  rw [specChecksum, foldl_specChecksumStep_fst xs 0 0 (by decide), Nat.zero_add]

theorem sum_set (p : List Nat) :
    ∀ (k y : Nat), k < p.length → (p.set k y).sum + p.getD k 0 = p.sum + y := by
  induction p with
  | nil => intro k y h; simp at h
  | cons a q ih =>
    intro k y h
    cases k with
    | zero => simp; omega
    | succ n =>
      have := ih n y (by simpa using h)
      simp only [List.set_cons_succ, List.sum_cons, List.getD_cons_succ]
      omega

theorem flipPayloadBit_specFrame (c i : Nat) (p : List Nat) (k j : Nat) (hk : k < p.length) :
    flipPayloadBit (specFrame c i p) k j =
      [0xB5, 0x62] ++ specBody c i (p.set k (p.getD k 0 ^^^ 2 ^ j)) ++
        [(specChecksum (specBody c i p)).1, (specChecksum (specBody c i p)).2] := by
  simp only [flipPayloadBit, specFrame]
  generalize (specChecksum (specBody c i p)).1 = a
  generalize (specChecksum (specBody c i p)).2 = b
  simp [specBody, List.set_append_left _ _ hk, List.getD_eq_getElem?_getD,
    List.getElem?_append_left hk]

theorem feedBytes_noise (noise : List Nat) :
    ∀ d : Decoder, d.state = st_sync_1 → 0xB5 ∉ noise →
      feedBytes d noise = some (d, List.replicate noise.length 0) := by
  induction noise with
  | nil => intro d _ _; rfl
  | cons x xs ih =>
    intro d hs hx
    have hx1 : x ≠ 0xB5 := fun h => hx (by simp [h])
    have hx2 : 0xB5 ∉ xs := fun h => hx (List.mem_cons_of_mem _ h)
    have hstep : UBX_HandleByte d x = some (d, 0) := by
      simp [UBX_HandleByte, hs, hx1]
    rw [feedBytes_cons_some hstep (ih d hs hx2)]
    rfl

theorem feedBytes_flipped (d : Decoder) (c i : Nat) (p : List Nat) (k j : Nat)
    (hs : d.state = st_sync_1) (hbuf : d.UBX_payload.length = 64)
    (hc : c < 256) (hp : p.length ≤ 64) (hk : k < p.length) (hj : j < 8)
    (hx : p.getD k 0 < 256) :
    ∃ d1, feedBytes d (flipPayloadBit (specFrame c i p) k j) =
      some (d1, List.replicate (p.length + 8) 0) := by
  have hlen : (p.set k (p.getD k 0 ^^^ 2 ^ j)).length = p.length := by simp
  obtain ⟨d1, hf, h1, h2, -, -, -, -, -⟩ :=
    feedBytes_body d c i (p.set k (p.getD k 0 ^^^ 2 ^ j)) hs hbuf hc (by rw [hlen]; exact hp)
  rw [hlen] at hf
  have ha : d1.ck_a = (specChecksum (specBody c i (p.set k (p.getD k 0 ^^^ 2 ^ j)))).1 := by
    rw [← h2]
  have hpow : 1 ≤ 2 ^ j ∧ 2 ^ j ≤ 128 := by
    constructor
    · exact Nat.one_le_two_pow
    · exact Nat.pow_le_pow_right (by decide) (show j ≤ 7 by omega)
  have hsum := sum_set p k (p.getD k 0 ^^^ 2 ^ j) hk
  have hxor := xor_bit_cases (p.getD k 0) hx j hj
  have hne : d1.ck_a ≠ (specChecksum (specBody c i p)).1 := by
    rw [ha, specChecksum_fst, specChecksum_fst]
    simp only [specBody, List.sum_append, List.sum_cons, List.sum_nil, hlen]
    generalize 2 ^ j = t at hpow hsum hxor
    generalize p.getD k 0 ^^^ t = y at hsum hxor
    omega
  have htail : ∃ d2, feedBytes d1
      [(specChecksum (specBody c i p)).1, (specChecksum (specBody c i p)).2]
      = some (d2, [0, 0]) := by
    by_cases hb : (specChecksum (specBody c i p)).2 = 0xB5
    · exact ⟨_, by simp [feedBytes, UBX_HandleByte, h1, hne, hb]; rfl⟩
    · exact ⟨_, by simp [feedBytes, UBX_HandleByte, h1, hne, hb]; rfl⟩
  obtain ⟨d2, ht⟩ := htail
  refine ⟨d2, ?_⟩
  rw [flipPayloadBit_specFrame c i p k j hk, feedBytes_append_some _ _ _ _ _ _ _ hf ht]
  simp [List.replicate_succ', List.append_assoc]

/-! ## Lemmas: handshake and tone engine -/

theorem CursorOk_step (d : Decoder) (ch : Nat) (h : CursorOk d) :
    ∃ d1 r, UBX_HandleByte d ch = some (d1, r) ∧ CursorOk d1 := by
  unfold CursorOk at h
  cases hs : d.state with
  | st_payload =>
    obtain ⟨h1, h2⟩ := h hs
    refine ⟨_, _, UBX_HandleByte_payload d ch hs (by omega), ?_⟩
    intro hst
    by_cases he : d.index + 1 = d.UBX_payload_len
    · simp [he] at hst
    · simp only [he, if_false] at hst ⊢
      exact ⟨by omega, h2⟩
  | st_length_2 =>
    unfold UBX_HandleByte
    rw [hs]
    simp only
    split
    · exact ⟨_, _, rfl, by simp [CursorOk]⟩
    · split
      · rename_i h0 h1
        refine ⟨_, _, rfl, ?_⟩
        intro _
        simp only [UBX_MAX_PAYLOAD_LEN] at h1 ⊢
        constructor <;> omega
      · exact ⟨_, _, rfl, by simp [CursorOk]⟩
  | st_sync_1 =>
    unfold UBX_HandleByte
    rw [hs]
    simp only
    split
    · exact ⟨_, _, rfl, by simp [CursorOk]⟩
    · exact ⟨_, _, rfl, by simp [CursorOk, hs]⟩
  | st_sync_2 =>
    unfold UBX_HandleByte
    rw [hs]
    simp only
    split <;> exact ⟨_, _, rfl, by simp [CursorOk]⟩
  | st_class =>
    unfold UBX_HandleByte
    rw [hs]
    exact ⟨_, _, rfl, by simp [CursorOk]⟩
  | st_id =>
    unfold UBX_HandleByte
    rw [hs]
    exact ⟨_, _, rfl, by simp [CursorOk]⟩
  | st_length_1 =>
    unfold UBX_HandleByte
    rw [hs]
    exact ⟨_, _, rfl, by simp [CursorOk]⟩
  | st_ck_a =>
    unfold UBX_HandleByte
    rw [hs]
    simp only
    split <;> exact ⟨_, _, rfl, by simp [CursorOk]⟩
  | st_ck_b =>
    unfold UBX_HandleByte
    rw [hs]
    simp only
    split <;> exact ⟨_, _, rfl, by simp [CursorOk]⟩

theorem CursorOk_init : CursorOk Decoder.init := by
  intro h; cases h

theorem CursorOk_feedBytes (bs : List Nat) :
    ∀ d : Decoder, CursorOk d →
      ∃ d1 rets, feedBytes d bs = some (d1, rets) ∧ CursorOk d1 := by
  induction bs with
  | nil => intro d hd; exact ⟨d, [], rfl, hd⟩
  | cons b rest ih =>
    intro d hd
    obtain ⟨e, r, hstep, he⟩ := CursorOk_step d b hd
    obtain ⟨d1, rs, hrun, h1⟩ := ih e he
    exact ⟨d1, r :: rs, feedBytes_cons_some hstep hrun, h1⟩

theorem UBX_WaitForAck_eq_handshakeResult (msg_class msg_id : Nat) (polls : Polls) :
    ∀ d : Decoder, CursorOk d →
      ∃ ds d1, deliveries d polls.bytes = some ds ∧
        UBX_WaitForAck msg_class msg_id d polls =
          some (d1, handshakeResult msg_class msg_id ds) := by
  induction polls with
  | nil => intro d _; exact ⟨[], d, rfl, rfl⟩
  | cons p rest ih =>
    intro d hd
    cases p with
    | none =>
      obtain ⟨ds, d1, h1, h2⟩ := ih d hd
      exact ⟨ds, d1, by simpa [Polls.bytes] using h1, by simpa [UBX_WaitForAck] using h2⟩
    | some ch =>
      obtain ⟨e, r, hstep, he⟩ := CursorOk_step d (ch % 256) hd
      obtain ⟨ds, d1, h1, h2⟩ := ih e he
      have hb : Polls.bytes (some ch :: rest) = (ch % 256) :: Polls.bytes rest := by
        simp [Polls.bytes]
      by_cases hr : r = 0
      · subst hr
        refine ⟨ds, d1, ?_, ?_⟩
        · rw [hb]; simp [deliveries, hstep, h1]
        · simp [UBX_WaitForAck, hstep, h2]
      · have hdel : deliveries d (Polls.bytes (some ch :: rest)) = some (e :: ds) := by
          rw [hb]; simp [deliveries, hstep, h1, hr]
        by_cases hrep : isReply msg_class msg_id e = true
        · refine ⟨e :: ds, e, hdel, ?_⟩
          have hres : handshakeResult msg_class msg_id (e :: ds)
              = if e.UBX_msg_id = UBX_ACK_ACK then 1 else 0 := by
            simp [handshakeResult, List.find?_cons, hrep]
          rw [hres]
          simp only [isReply, decide_eq_true_eq] at hrep
          obtain ⟨hc, hi, hp0, hp1⟩ := hrep
          simp only [List.getD_eq_getElem?_getD] at hp0 hp1
          rcases hi with hi | hi
          · simp [UBX_WaitForAck, hstep, hr, hc, hi, hp0, hp1]
          · simp [UBX_WaitForAck, hstep, hr, hc, hi, hp0, hp1]
        · refine ⟨e :: ds, d1, hdel, ?_⟩
          have hres : handshakeResult msg_class msg_id (e :: ds)
              = handshakeResult msg_class msg_id ds := by
            simp [handshakeResult, List.find?_cons, hrep]
          rw [hres, ← h2]
          simp only [isReply, decide_eq_true_eq] at hrep
          simp only [UBX_WaitForAck, hstep, hr, ne_eq, not_false_eq_true, if_true]
          split
          · rename_i hA
            split
            · rename_i hB
              exact absurd ⟨hA.1, Or.inl hA.2, hB.1, hB.2⟩ hrep
            · rfl
          · split
            · rename_i hA
              split
              · rename_i hB
                exact absurd ⟨hA.1, Or.inr hA.2, hB.1, hB.2⟩ hrep
              · rfl
            · rfl

theorem wrap32_of_range (x : Int) (h1 : -2147483648 ≤ x) (h2 : x < 2147483648) :
    wrap32 x = x := by
  unfold wrap32; omega

theorem wrap32_range (x : Int) : -2147483648 ≤ wrap32 x ∧ wrap32 x < 2147483648 := by
  unfold wrap32; omega

theorem toU32_ABS (x : Int) (h1 : -2147483648 ≤ x) (h2 : x < 2147483648) :
    toU32 (ABS x) = x.natAbs := by
  unfold toU32 ABS wrap32
  split <;> omega

theorem ABS_of_range (x : Int) (h1 : -2147483648 < x) (h2 : x < 2147483648) :
    ABS x = (x.natAbs : Int) := by
  unfold ABS wrap32
  split <;> omega

theorem UBX_HandleVelocity_gate_closed (cfg : Config) (v : UBX_nav_velned)
    (h : v.velD.natAbs < cfg.UBX_threshold ∨ v.gSpeed < cfg.UBX_hThreshold)
    (hr : -2147483648 ≤ v.velD ∧ v.velD < 2147483648) :
    UBX_HandleVelocity_gate cfg v =
      { val_1 := UBX_INVALID_VALUE, min_1 := wrap32 cfg.UBX_min, max_1 := wrap32 cfg.UBX_max,
        val_2 := UBX_INVALID_VALUE, min_2 := wrap32 cfg.UBX_min_2,
        max_2 := wrap32 cfg.UBX_max_2 } := by
  unfold UBX_HandleVelocity_gate
  rw [toU32_ABS _ hr.1 hr.2]
  have : ¬ (v.velD.natAbs ≥ cfg.UBX_threshold ∧ v.gSpeed ≥ cfg.UBX_hThreshold) := by omega
  simp only [this, if_false]

theorem UBX_HandleVelocity_values_closed (cfg : Config) (g : Globals) (payload : List Nat)
    (hgate : (UBX_nav_velned.ofPayload payload).velD.natAbs < cfg.UBX_threshold ∨
      (UBX_nav_velned.ofPayload payload).gSpeed < cfg.UBX_hThreshold) :
    ∃ g1, UBX_HandleVelocity_values cfg g payload = some
      (g1, { val_1 := UBX_INVALID_VALUE, min_1 := wrap32 cfg.UBX_min,
             max_1 := wrap32 cfg.UBX_max, val_2 := UBX_INVALID_VALUE,
             min_2 := wrap32 cfg.UBX_min_2, max_2 := wrap32 cfg.UBX_max_2 }) ∧
      g1.UBX_hasFix = g.UBX_hasFix := by
  have hr : -2147483648 ≤ (UBX_nav_velned.ofPayload payload).velD ∧
      (UBX_nav_velned.ofPayload payload).velD < 2147483648 := wrap32_range _
  have hg := UBX_HandleVelocity_gate_closed cfg _ hgate hr
  unfold UBX_HandleVelocity_values
  dsimp only
  rw [hg]
  by_cases hm : cfg.UBX_mode_2 = 9
  · rw [if_pos hm, if_neg (fun h => h.1 rfl)]
    exact ⟨_, rfl, rfl⟩
  · rw [if_neg hm]
    exact ⟨_, rfl, rfl⟩

theorem natAbs_tdiv_le (a b : Int) : (a.tdiv b).natAbs ≤ a.natAbs := by
  rw [Int.natAbs_tdiv]
  exact Nat.div_le_self _ _

theorem div32_of_range (a b : Int) (hb : b ≠ 0)
    (ha : (a.natAbs : Int) < 2147483648) : div32 a b = some (a.tdiv b) := by
  unfold div32
  rw [if_neg hb]
  have := natAbs_tdiv_le a b
  rw [wrap32_of_range] <;> omega

/-! ## Lemmas: tone mapping, fix tracker and dispatch -/

theorem UNDER_or_OVER_of_eq (val min max : Int) (h : min = max) :
    UNDER val min max = true ∨ OVER val min max = true := by
  subst h
  simp only [UNDER, OVER, Int.lt_irrefl, if_false, decide_eq_true_eq]
  omega

theorem ne_of_not_UNDER_of_not_OVER (val min max : Int)
    (hu : ¬ UNDER val min max = true) (ho : ¬ OVER val min max = true) : min ≠ max := by
  intro h
  rcases UNDER_or_OVER_of_eq val min max h with h1 | h1
  · exact hu h1
  · exact ho h1

theorem wrap32_sub_ne_zero (a b : Int) (ha : IsInt32 a) (hb : IsInt32 b) (h : b ≠ a) :
    wrap32 (a - b) ≠ 0 := by
  unfold IsInt32 at ha hb
  unfold wrap32
  omega

theorem toU32_wrap32_sub_ne_zero (a b : Int) (ha : IsInt32 a) (hb : IsInt32 b) (h : b ≠ a) :
    toU32 (wrap32 (a - b)) ≠ 0 := by
  unfold IsInt32 at ha hb
  unfold toU32 wrap32
  omega

theorem UBX_SetTone_rate_isSome (tone : Tone_h) (cfg : Config) (val_2 min_2 max_2 : Int)
    (hmin : IsInt32 min_2) (hmax : IsInt32 max_2) :
    ∃ r, UBX_SetTone_rate tone cfg val_2 min_2 max_2 = some r := by
  unfold UBX_SetTone_rate
  by_cases hu : UNDER val_2 min_2 max_2 = true
  · rw [if_pos hu]
    by_cases hf : cfg.UBX_flatline ≠ 0
    · rw [if_pos hf]; exact ⟨_, rfl⟩
    · rw [if_neg hf]; exact ⟨_, rfl⟩
  · rw [if_neg hu]
    by_cases ho : OVER val_2 min_2 max_2 = true
    · rw [if_pos ho]; exact ⟨_, rfl⟩
    · rw [if_neg ho]
      have hne := ne_of_not_UNDER_of_not_OVER _ _ _ hu ho
      have hden := toU32_wrap32_sub_ne_zero max_2 min_2 hmax hmin hne
      dsimp only
      rw [if_neg hden]
      exact ⟨_, rfl⟩

theorem UBX_SetTone_pitch_isSome (tone : Tone_h) (val_1 min_1 max_1 : Int)
    (hmin : IsInt32 min_1) (hmax : IsInt32 max_1) :
    ∃ p, UBX_SetTone_pitch tone val_1 min_1 max_1 = some p := by
  unfold UBX_SetTone_pitch
  by_cases hu : UNDER val_1 min_1 max_1 = true
  · rw [if_pos hu]; exact ⟨_, rfl⟩
  · rw [if_neg hu]
    by_cases ho : OVER val_1 min_1 max_1 = true
    · rw [if_pos ho]; exact ⟨_, rfl⟩
    · rw [if_neg ho]
      have hne := ne_of_not_UNDER_of_not_OVER _ _ _ hu ho
      have hden := wrap32_sub_ne_zero max_1 min_1 hmax hmin hne
      unfold div32
      rw [if_neg hden]
      exact ⟨_, rfl⟩

/-- With both values valid `UBX_SetTone` makes the rate call and then the
pitch call. -/
theorem UBX_SetTone_valid (tone : Tone_h) (cfg : Config)
    (val_1 min_1 max_1 val_2 min_2 max_2 : Int) (r p : ToneCall)
    (hv1 : val_1 ≠ UBX_INVALID_VALUE) (hv2 : val_2 ≠ UBX_INVALID_VALUE)
    (hr : UBX_SetTone_rate tone cfg val_2 min_2 max_2 = some r)
    (hp : UBX_SetTone_pitch tone val_1 min_1 max_1 = some p) :
    UBX_SetTone tone cfg val_1 min_1 max_1 val_2 min_2 max_2 = some [r, p] := by
  unfold UBX_SetTone
  rw [if_pos ⟨hv1, hv2⟩, hr, hp]

theorem tdiv_between (P a b : Int) (hP : 0 < P)
    (h : (0 < a ∧ a < b) ∨ (b < a ∧ a < 0)) :
    0 ≤ Int.tdiv (P * a) b ∧ Int.tdiv (P * a) b < P := by
  rcases h with ⟨ha, hab⟩ | ⟨hba, ha⟩
  · have hpa : 0 ≤ P * a := Int.mul_nonneg (by omega) (by omega)
    rw [Int.tdiv_eq_ediv hpa (by omega)]
    refine ⟨Int.ediv_nonneg hpa (by omega), Int.ediv_lt_of_lt_mul (by omega) ?_⟩
    exact Int.mul_lt_mul_of_pos_left hab hP
  · have e : Int.tdiv (P * a) b = Int.tdiv (P * (-a)) (-b) := by
      rw [← Int.neg_tdiv_neg]; simp
    have hpa : 0 ≤ P * (-a) := Int.mul_nonneg (by omega) (by omega)
    rw [e, Int.tdiv_eq_ediv hpa (by omega)]
    refine ⟨Int.ediv_nonneg hpa (by omega), Int.ediv_lt_of_lt_mul (by omega) ?_⟩
    exact Int.mul_lt_mul_of_pos_left (by omega) hP

theorem UBX_SetTone_pitch_between (tone : Tone_h) (v min max : Int)
    (hP : 0 < tone.TONE_MAX_PITCH)
    (hb : (min < v ∧ v < max) ∨ (max < v ∧ v < min))
    (ho1 : IsInt32 (v - min)) (ho2 : IsInt32 (max - min))
    (ho3 : IsInt32 (tone.TONE_MAX_PITCH * (v - min))) :
    UBX_SetTone_pitch tone v min max =
      some (Tone_SetPitch (Int.tdiv (tone.TONE_MAX_PITCH * (v - min)) (max - min))) := by
  have hq := tdiv_between tone.TONE_MAX_PITCH (v - min) (max - min) hP (by omega)
  have hPle : tone.TONE_MAX_PITCH ≤ 2147483648 := by
    unfold IsInt32 at ho3
    rcases hb with ⟨h1, _⟩ | ⟨_, h1⟩
    · have : tone.TONE_MAX_PITCH * 1 ≤ tone.TONE_MAX_PITCH * (v - min) :=
        Int.mul_le_mul_of_nonneg_left (by omega) (by omega)
      omega
    · have : tone.TONE_MAX_PITCH * (v - min) ≤ tone.TONE_MAX_PITCH * (-1) :=
        Int.mul_le_mul_of_nonneg_left (by omega) (by omega)
      omega
  have hu : ¬ UNDER v min max = true := by
    unfold UNDER; split <;> simp <;> omega
  have hov : ¬ OVER v min max = true := by
    unfold OVER; split <;> simp <;> omega
  unfold IsInt32 at ho1 ho2 ho3
  have w1 : wrap32 (v - min) = v - min := by unfold wrap32; omega
  have w2 : wrap32 (max - min) = max - min := by unfold wrap32; omega
  have w3 : wrap32 (tone.TONE_MAX_PITCH * (v - min)) = tone.TONE_MAX_PITCH * (v - min) := by
    unfold wrap32; omega
  have w4 : wrap32 (Int.tdiv (tone.TONE_MAX_PITCH * (v - min)) (max - min))
      = Int.tdiv (tone.TONE_MAX_PITCH * (v - min)) (max - min) := by
    unfold wrap32; omega
  unfold UBX_SetTone_pitch
  rw [if_neg hu, if_neg hov, w1, w2, w3]
  unfold div32
  rw [if_neg (by omega), w4]

theorem UBX_SetTone_rate_between (tone : Tone_h) (cfg : Config) (val_2 min_2 max_2 : Int)
    (hrate : cfg.UBX_min_rate < cfg.UBX_max_rate) (hmaxr : cfg.UBX_max_rate < 4294967296)
    (hb : min_2 < val_2 ∧ val_2 < max_2)
    (h3 : IsInt32 min_2) (h4 : IsInt32 max_2)
    (hov : (cfg.UBX_max_rate - cfg.UBX_min_rate) * (val_2 - min_2).toNat < 4294967296) :
    UBX_SetTone_rate tone cfg val_2 min_2 max_2 =
      some (Tone_SetRate (cfg.UBX_min_rate +
        (cfg.UBX_max_rate - cfg.UBX_min_rate) * (val_2 - min_2).toNat /
          (max_2 - min_2).toNat)) ∧
    cfg.UBX_min_rate ≤ cfg.UBX_min_rate +
        (cfg.UBX_max_rate - cfg.UBX_min_rate) * (val_2 - min_2).toNat /
          (max_2 - min_2).toNat ∧
    cfg.UBX_min_rate +
        (cfg.UBX_max_rate - cfg.UBX_min_rate) * (val_2 - min_2).toNat /
          (max_2 - min_2).toNat < cfg.UBX_max_rate := by
  unfold IsInt32 at h3 h4
  have hu : ¬ UNDER val_2 min_2 max_2 = true := by
    unfold UNDER; split <;> simp <;> omega
  have ho : ¬ OVER val_2 min_2 max_2 = true := by
    unfold OVER; split <;> simp <;> omega
  have hspan : (cfg.UBX_max_rate + 4294967296 - cfg.UBX_min_rate) % 4294967296
      = cfg.UBX_max_rate - cfg.UBX_min_rate := by omega
  have ha : toU32 (wrap32 (val_2 - min_2)) = (val_2 - min_2).toNat := by
    unfold toU32 wrap32; omega
  have hb2 : toU32 (wrap32 (max_2 - min_2)) = (max_2 - min_2).toNat := by
    unfold toU32 wrap32; omega
  have hlt : (val_2 - min_2).toNat < (max_2 - min_2).toNat := by omega
  have hq : (cfg.UBX_max_rate - cfg.UBX_min_rate) * (val_2 - min_2).toNat /
      (max_2 - min_2).toNat < cfg.UBX_max_rate - cfg.UBX_min_rate := by
    apply Nat.div_lt_of_lt_mul
    rw [Nat.mul_comm]
    exact Nat.mul_lt_mul_of_lt_of_le hlt (Nat.le_refl _) (by omega)
  have hsum : cfg.UBX_min_rate + (cfg.UBX_max_rate - cfg.UBX_min_rate) *
      (val_2 - min_2).toNat / (max_2 - min_2).toNat < cfg.UBX_max_rate := by
    generalize (cfg.UBX_max_rate - cfg.UBX_min_rate) * (val_2 - min_2).toNat /
      (max_2 - min_2).toNat = q at hq
    omega
  refine ⟨?_, Nat.le_add_right _ _, hsum⟩
  unfold UBX_SetTone_rate
  rw [if_neg hu, if_neg ho]
  dsimp only
  rw [hspan, ha, hb2, Nat.mod_eq_of_lt hov, if_neg (by omega),
    Nat.mod_eq_of_lt (Nat.lt_trans hsum hmaxr)]

theorem tdiv_IsInt32 (a b : Int) (ha : IsInt32 a) (h : -2147483648 < a) :
    wrap32 (Int.tdiv a b) = Int.tdiv a b := by
  unfold IsInt32 at ha
  have := natAbs_tdiv_le a b
  unfold wrap32
  omega

theorem UBX_HandleNavSol_fix (tone : Tone_h) (cfg : Config) (g : Globals) (p : List Nat)
    (h : p.getD 10 0 = 3) :
    ∃ g1, UBX_HandleNavSol tone cfg g p = some (g1,
        if g.UBX_hasBeeped = 0 then
          [Tone_Beep (tone.TONE_MAX_PITCH - 1) tone.TONE_LENGTH_125_MS] else []) ∧
      g1.UBX_hasFix = 1 ∧ g1.UBX_hasBeeped ≠ 0 ∧ g1.initializeLog = g.initializeLog := by
  unfold UBX_HandleNavSol
  dsimp only [UBX_nav_sol.ofPayload]
  rw [if_pos h]
  by_cases hb : g.UBX_hasBeeped = 0
  · rw [if_pos hb, if_pos hb]
    exact ⟨_, rfl, rfl, by simp, rfl⟩
  · rw [if_neg hb, if_neg hb]
    exact ⟨_, rfl, rfl, hb, rfl⟩

theorem UBX_HandleNavSol_nofix (tone : Tone_h) (cfg : Config) (g : Globals) (p : List Nat)
    (h : p.getD 10 0 ≠ 3) :
    ∃ g1, UBX_HandleNavSol tone cfg g p = some (g1, [Tone_SetRate 0]) ∧
      g1.UBX_hasFix = 0 ∧ g1.UBX_hasBeeped = g.UBX_hasBeeped ∧
      g1.initializeLog = g.initializeLog := by
  unfold UBX_HandleNavSol
  dsimp only [UBX_nav_sol.ofPayload]
  rw [if_neg h]
  have hs : UBX_SetTone tone cfg UBX_INVALID_VALUE 0 0 0 0 0 = some [Tone_SetRate 0] := by
    unfold UBX_SetTone
    rw [if_neg (fun hh => hh.1 rfl)]
  rw [hs]
  exact ⟨_, rfl, rfl, rfl, rfl⟩

theorem navSolUpdates_beeps (tone : Tone_h) (cfg : Config) (ps : List (List Nat)) :
    ∀ g : Globals, ∃ g1 calls, navSolUpdates tone cfg g ps = some (g1, calls) ∧
      (calls.filter isBeep).length =
        if g.UBX_hasBeeped = 0 ∧ ps.any (fun p => decide (p.getD 10 0 = 3)) = true
        then 1 else 0 := by
  induction ps with
  | nil => intro g; exact ⟨g, [], rfl, by simp⟩
  | cons p ps ih =>
    intro g
    by_cases h : p.getD 10 0 = 3
    · obtain ⟨g1, hstep, -, hb1, -⟩ := UBX_HandleNavSol_fix tone cfg g p h
      obtain ⟨g2, c2, hrun, hcount⟩ := ih g1
      have hall : navSolUpdates tone cfg g (p :: ps) = some (g2,
          (if g.UBX_hasBeeped = 0 then
            [Tone_Beep (tone.TONE_MAX_PITCH - 1) tone.TONE_LENGTH_125_MS] else []) ++ c2) := by
        simp only [navSolUpdates, hstep, hrun]
      refine ⟨g2, _, hall, ?_⟩
      rw [List.filter_append, List.length_append, hcount]
      simp only [hb1, false_and, if_false, List.any_cons, h, decide_True, Bool.true_or, and_true]
      by_cases hb : g.UBX_hasBeeped = 0
      · simp [hb, isBeep]
      · simp [hb]
    · obtain ⟨g1, hstep, -, hb1, -⟩ := UBX_HandleNavSol_nofix tone cfg g p h
      obtain ⟨g2, c2, hrun, hcount⟩ := ih g1
      have hall : navSolUpdates tone cfg g (p :: ps) = some (g2, [Tone_SetRate 0] ++ c2) := by
        simp only [navSolUpdates, hstep, hrun]
      refine ⟨g2, _, hall, ?_⟩
      rw [List.filter_append, List.length_append, hcount, hb1]
      have h2 : ¬ p[10]?.getD 0 = 3 := by
        simpa [List.getD_eq_getElem?_getD] using h
      simp [isBeep, h2]

theorem UBX_HandleVelocity_values_hasFix (cfg : Config) (g g1 : Globals) (payload : List Nat)
    (c : Channels) (h : UBX_HandleVelocity_values cfg g payload = some (g1, c)) :
    g1.UBX_hasFix = g.UBX_hasFix := by
  unfold UBX_HandleVelocity_values at h
  dsimp only at h
  split at h
  · split at h
    · split at h
      · exact absurd h (by simp)
      · split at h
        · exact absurd h (by simp)
        · simp only [Option.some.injEq, Prod.mk.injEq] at h
          rw [← h.1]
    · simp only [Option.some.injEq, Prod.mk.injEq] at h
      rw [← h.1]
  · simp only [Option.some.injEq, Prod.mk.injEq] at h
    rw [← h.1]

theorem UBX_HandleVelocity_nofix (tone : Tone_h) (cfg : Config) (g : Globals)
    (payload : List Nat) (h : g.UBX_hasFix = 0) :
    UBX_HandleVelocity tone cfg g payload =
      (UBX_HandleVelocity_values cfg g payload).map (fun r => (r.1, [])) := by
  unfold UBX_HandleVelocity
  cases hv : UBX_HandleVelocity_values cfg g payload with
  | none => rfl
  | some r =>
    obtain ⟨g1, c⟩ := r
    have := UBX_HandleVelocity_values_hasFix cfg g g1 payload c hv
    simp [this, h]

theorem UBX_HandleVelocity_values_isSome (cfg : Config) (g : Globals) (payload : List Nat)
    (h : cfg.UBX_mode_2 = 9 → (2 * cfg.UBX_rate) % 65536 ≠ 0 ∧
      ABS (wrap32 ((UBX_HandleVelocity_gate cfg (UBX_nav_velned.ofPayload payload)).max_1 -
        (UBX_HandleVelocity_gate cfg (UBX_nav_velned.ofPayload payload)).min_1)) ≠ 0) :
    ∃ r, UBX_HandleVelocity_values cfg g payload = some r := by
  unfold UBX_HandleVelocity_values
  dsimp only
  by_cases hm : cfg.UBX_mode_2 = 9
  · obtain ⟨h1, h2⟩ := h hm
    rw [if_pos hm]
    split
    · have e1 : (((2 * cfg.UBX_rate) % 65536 : Nat) : Int) ≠ 0 := by omega
      simp only [div32, e1, h2, if_false]
      exact ⟨_, rfl⟩
    · exact ⟨_, rfl⟩
  · rw [if_neg hm]
    exact ⟨_, rfl⟩

/-! ## Lemmas: dispatch without a fix and log records -/

theorem UBX_HandleTimeUTC_hasFix (cfg : Config) (g : Globals) (payload : List Nat) :
    (UBX_HandleTimeUTC cfg g payload).1.UBX_hasFix = g.UBX_hasFix := by
  unfold UBX_HandleTimeUTC
  dsimp only
  split
  · split <;> rfl
  · rfl

theorem UBX_HandleMessage_nofix (tone : Tone_h) (cfg : Config) (g g1 : Globals) (d : Decoder)
    (out : List Effect) (hg : g.UBX_hasFix = 0) (hd : isFixSol d = false)
    (h : UBX_HandleMessage tone cfg g d = some (g1, out)) :
    g1.UBX_hasFix = 0 ∧ ∀ c, Effect.tone c ∈ out → c = Tone_SetRate 0 := by
  unfold UBX_HandleMessage at h
  split at h
  · rename_i hc
    split at h
    · simp only [Option.some.injEq, Prod.mk.injEq] at h
      obtain ⟨rfl, rfl⟩ := h
      exact ⟨hg, by simp⟩
    · split at h
      · rw [UBX_HandleVelocity_nofix tone cfg g d.UBX_payload hg] at h
        cases hv : UBX_HandleVelocity_values cfg g d.UBX_payload with
        | none => simp [hv] at h
        | some r =>
          obtain ⟨g2, c⟩ := r
          have hf := UBX_HandleVelocity_values_hasFix cfg g g2 d.UBX_payload c hv
          simp only [hv, Option.map_some', List.map_nil, Option.some.injEq,
            Prod.mk.injEq] at h
          obtain ⟨rfl, rfl⟩ := h
          exact ⟨by rw [hf, hg], by simp⟩
      · split at h
        · rename_i hi
          have hfix : d.UBX_payload.getD 10 0 ≠ 3 := by
            intro h3
            have : isFixSol d = true := by
              simp only [isFixSol, UBX_nav_sol.ofPayload, decide_eq_true_eq]
              exact ⟨hc, hi, h3⟩
            rw [this] at hd
            exact absurd hd (by simp)
          obtain ⟨g2, hs, hf, -, -⟩ := UBX_HandleNavSol_nofix tone cfg g d.UBX_payload hfix
          simp only [hs, List.map_cons, List.map_nil, Option.some.injEq, Prod.mk.injEq] at h
          obtain ⟨rfl, rfl⟩ := h
          exact ⟨hf, by simp⟩
        · split at h
          · simp only [Option.some.injEq, Prod.mk.injEq] at h
            obtain ⟨rfl, rfl⟩ := h
            exact ⟨by rw [UBX_HandleTimeUTC_hasFix, hg], by simp⟩
          · simp only [Option.some.injEq, Prod.mk.injEq] at h
            obtain ⟨rfl, rfl⟩ := h
            exact ⟨hg, by simp⟩
  · simp only [Option.some.injEq, Prod.mk.injEq] at h
    obtain ⟨rfl, rfl⟩ := h
    exact ⟨hg, by simp⟩

theorem dispatchAll_nofix (tone : Tone_h) (cfg : Config) (ds : List Decoder) :
    ∀ (g g1 : Globals) (out : List Effect), g.UBX_hasFix = 0 →
      (∀ d ∈ ds, isFixSol d = false) →
      dispatchAll tone cfg g ds = some (g1, out) →
      g1.UBX_hasFix = 0 ∧ ∀ c, Effect.tone c ∈ out → c = Tone_SetRate 0 := by
  induction ds with
  | nil =>
    intro g g1 out hg _ h
    simp only [dispatchAll, Option.some.injEq, Prod.mk.injEq] at h
    obtain ⟨rfl, rfl⟩ := h
    exact ⟨hg, by simp⟩
  | cons d ds ih =>
    intro g g1 out hg hds h
    simp only [dispatchAll] at h
    cases h1 : UBX_HandleMessage tone cfg g d with
    | none => simp [h1] at h
    | some r =>
      obtain ⟨g2, e1⟩ := r
      cases h2 : dispatchAll tone cfg g2 ds with
      | none => simp [h1, h2] at h
      | some r2 =>
        obtain ⟨g3, e2⟩ := r2
        simp only [h1, h2, Option.some.injEq, Prod.mk.injEq] at h
        obtain ⟨rfl, rfl⟩ := h
        have s1 := UBX_HandleMessage_nofix tone cfg g g2 d e1 hg
          (hds d (List.mem_cons_self _ _)) h1
        have s2 := ih g2 g3 e2 s1.1 (fun x hx => hds x (List.mem_cons_of_mem _ hx)) h2
        refine ⟨s2.1, fun c hc => ?_⟩
        rcases List.mem_append.mp hc with hc | hc
        · exact s1.2 c hc
        · exact s2.2 c hc

theorem UBX_HandleMessage_nofix_isSome (tone : Tone_h) (cfg : Config) (g : Globals)
    (d : Decoder) (hg : g.UBX_hasFix = 0) (hd : isFixSol d = false)
    (hm : Mode9Defined cfg d.UBX_payload) :
    ∃ r, UBX_HandleMessage tone cfg g d = some r := by
  unfold UBX_HandleMessage
  split
  · rename_i hc
    split
    · exact ⟨_, rfl⟩
    · split
      · rw [UBX_HandleVelocity_nofix tone cfg g d.UBX_payload hg]
        obtain ⟨r, hr⟩ := UBX_HandleVelocity_values_isSome cfg g d.UBX_payload hm
        rw [hr]
        exact ⟨_, rfl⟩
      · split
        · rename_i hi
          have hfix : d.UBX_payload.getD 10 0 ≠ 3 := by
            intro h3
            have : isFixSol d = true := by
              simp only [isFixSol, UBX_nav_sol.ofPayload, decide_eq_true_eq]
              exact ⟨hc, hi, h3⟩
            rw [this] at hd
            exact absurd hd (by simp)
          obtain ⟨g2, hs, -⟩ := UBX_HandleNavSol_nofix tone cfg g d.UBX_payload hfix
          rw [hs]
          exact ⟨_, rfl⟩
        · split <;> exact ⟨_, rfl⟩
  · exact ⟨_, rfl⟩

theorem dispatchAll_nofix_isSome (tone : Tone_h) (cfg : Config) (ds : List Decoder) :
    ∀ g : Globals, g.UBX_hasFix = 0 → (∀ d ∈ ds, isFixSol d = false) →
      (∀ d ∈ ds, Mode9Defined cfg d.UBX_payload) →
      ∃ r, dispatchAll tone cfg g ds = some r := by
  induction ds with
  | nil => intro g _ _ _; exact ⟨_, rfl⟩
  | cons d ds ih =>
    intro g hg hds hm
    obtain ⟨r, hr⟩ := UBX_HandleMessage_nofix_isSome tone cfg g d hg
      (hds d (List.mem_cons_self _ _)) (hm d (List.mem_cons_self _ _))
    obtain ⟨g2, e1⟩ := r
    have s1 := UBX_HandleMessage_nofix tone cfg g g2 d e1 hg
      (hds d (List.mem_cons_self _ _)) hr
    obtain ⟨r2, hr2⟩ := ih g2 s1.1 (fun x hx => hds x (List.mem_cons_of_mem _ hx))
      (fun x hx => hm x (List.mem_cons_of_mem _ hx))
    obtain ⟨g3, e2⟩ := r2
    exact ⟨(g3, e1 ++ e2), by simp only [dispatchAll, hr, hr2]⟩

theorem UBX_HandleTimeUTC_gate_false (cfg : Config) (g : Globals) (p : List Nat)
    (h : logGate cfg g = false) : UBX_HandleTimeUTC cfg g p = (g, []) := by
  simp only [logGate, decide_eq_false_iff_not] at h
  simp only [UBX_HandleTimeUTC, if_neg h]

theorem UBX_HandleTimeUTC_gate_first (cfg : Config) (g : Globals) (p : List Nat)
    (h : logGate cfg g = true) (hi : g.initializeLog ≠ 0) :
    UBX_HandleTimeUTC cfg g p =
      ({ g with initializeLog := 0 },
        Power_Hold :: logInit p ::
          (UBX_HandleTimeUTC_fields g (UBX_nav_timeutc.ofPayload p) (timeUTC_ms p) ++
            [Log_Flush, Power_Release])) := by
  simp only [logGate, decide_eq_true_eq] at h
  simp only [UBX_HandleTimeUTC, if_pos h, if_pos hi, logInit, timeUTC_ms]
  rfl

theorem UBX_HandleTimeUTC_gate_later (cfg : Config) (g : Globals) (p : List Nat)
    (h : logGate cfg g = true) (hi : g.initializeLog = 0) :
    UBX_HandleTimeUTC cfg g p = (g, logRecord g p) := by
  simp only [logGate, decide_eq_true_eq] at h
  have hi2 : ¬ g.initializeLog ≠ 0 := by simp [hi]
  simp only [UBX_HandleTimeUTC, if_pos h, if_neg hi2, logRecord, timeUTC_ms]
  rfl

theorem timeUTCUpdates_later (cfg : Config) (ups : List (Globals × List Nat)) :
    timeUTCUpdates cfg 0 ups =
      ups.map (fun u => if logGate cfg u.1 then logRecord u.1 u.2 else []) := by
  induction ups with
  | nil => rfl
  | cons u ups ih =>
    obtain ⟨g, p⟩ := u
    cases hq : logGate cfg g with
    | false =>
      have hq2 : logGate cfg { g with initializeLog := 0 } = false := hq
      simp only [timeUTCUpdates, UBX_HandleTimeUTC_gate_false cfg _ p hq2, ih, List.map_cons, hq]
      simp
    | true =>
      have hq2 : logGate cfg { g with initializeLog := 0 } = true := hq
      simp only [timeUTCUpdates, UBX_HandleTimeUTC_gate_later cfg _ p hq2 rfl, ih, List.map_cons,
        hq]
      simp only [if_true]
      rfl

theorem timeUTCUpdates_none (cfg : Config) (il : Nat) (ups : List (Globals × List Nat))
    (h : ∀ u ∈ ups, logGate cfg u.1 = false) :
    timeUTCUpdates cfg il ups = ups.map (fun _ => []) := by
  induction ups with
  | nil => rfl
  | cons u ups ih =>
    obtain ⟨g, p⟩ := u
    have hq : logGate cfg { g with initializeLog := il } = false :=
      h (g, p) (List.mem_cons_self _ _)
    simp only [timeUTCUpdates, UBX_HandleTimeUTC_gate_false cfg _ p hq,
      ih (fun x hx => h x (List.mem_cons_of_mem _ hx)), List.map_cons]

theorem timeUTCUpdates_first (cfg : Config) (il : Nat) (hil : il ≠ 0)
    (pre post : List (Globals × List Nat)) (g : Globals) (p : List Nat)
    (hpre : ∀ u ∈ pre, logGate cfg u.1 = false) (hg : logGate cfg g = true) :
    timeUTCUpdates cfg il (pre ++ (g, p) :: post) =
      pre.map (fun _ => []) ++
        (Power_Hold :: logInit p ::
          (UBX_HandleTimeUTC_fields g (UBX_nav_timeutc.ofPayload p) (timeUTC_ms p) ++
            [Log_Flush, Power_Release])) ::
        post.map (fun u => if logGate cfg u.1 then logRecord u.1 u.2 else []) := by
  induction pre with
  | nil =>
    have hq : logGate cfg { g with initializeLog := il } = true := hg
    have hi : ({ g with initializeLog := il } : Globals).initializeLog ≠ 0 := hil
    simp only [List.nil_append, timeUTCUpdates, UBX_HandleTimeUTC_gate_first cfg _ p hq hi,
      timeUTCUpdates_later, List.map_nil]
    rfl
  | cons u pre ih =>
    obtain ⟨g0, p0⟩ := u
    have hq : logGate cfg { g0 with initializeLog := il } = false :=
      hpre (g0, p0) (List.mem_cons_self _ _)
    have ih2 := ih (fun x hx => hpre x (List.mem_cons_of_mem _ hx))
    show timeUTCUpdates cfg il ((g0, p0) :: (pre ++ (g, p) :: post)) = _
    simp only [timeUTCUpdates, UBX_HandleTimeUTC_gate_false cfg _ p0 hq, ih2, List.map_cons,
      List.cons_append]

theorem logRecord_no_init (g : Globals) (p : List Nat) :
    (logRecord g p).filter isLogInit = [] := rfl

theorem timeUTCUpdates_later_no_init (cfg : Config) (ups : List (Globals × List Nat)) :
    ((ups.map (fun u => if logGate cfg u.1 then logRecord u.1 u.2 else [])).flatten).filter
      isLogInit = [] := by
  induction ups with
  | nil => rfl
  | cons u ups ih =>
    simp only [List.map_cons, List.flatten_cons, List.filter_append, ih, List.append_nil]
    split
    · exact logRecord_no_init _ _
    · rfl

theorem flatten_map_nil {α β : Type} (l : List α) :
    (l.map (fun _ => ([] : List β))).flatten = [] := by
  induction l with
  | nil => rfl
  | cons a l ih => simp

theorem exists_first_gate (cfg : Config) (ups : List (Globals × List Nat))
    (h : ups.any (fun u => logGate cfg u.1) = true) :
    ∃ pre g p post, ups = pre ++ (g, p) :: post ∧
      (∀ u ∈ pre, logGate cfg u.1 = false) ∧ logGate cfg g = true := by
  induction ups with
  | nil => simp at h
  | cons u ups ih =>
    obtain ⟨g, p⟩ := u
    cases hq : logGate cfg g with
    | true => exact ⟨[], g, p, ups, rfl, by simp, hq⟩
    | false =>
      simp only [List.any_cons, hq, Bool.false_or] at h
      obtain ⟨pre, g1, p1, post, he, hpre, hg⟩ := ih h
      refine ⟨(g, p) :: pre, g1, p1, post, by rw [he]; rfl, ?_, hg⟩
      intro x hx
      rcases List.mem_cons.mp hx with rfl | hx
      · exact hq
      · exact hpre x hx

theorem timeUTCUpdates_init_count (cfg : Config) (ups : List (Globals × List Nat)) :
    (((timeUTCUpdates cfg 1 ups).flatten).filter isLogInit).length =
      if ups.any (fun u => logGate cfg u.1) then 1 else 0 := by
  cases h : ups.any (fun u => logGate cfg u.1) with
  | false =>
    have hn : ∀ u ∈ ups, logGate cfg u.1 = false := by
      intro u hu
      cases hq : logGate cfg u.1 with
      | false => rfl
      | true =>
        have : ups.any (fun u => logGate cfg u.1) = true :=
          List.any_eq_true.mpr ⟨u, hu, hq⟩
        rw [this] at h
        exact absurd h (by simp)
    rw [timeUTCUpdates_none cfg 1 ups hn, flatten_map_nil]
    rfl
  | true =>
    obtain ⟨pre, g, p, post, he, hpre, hg⟩ := exists_first_gate cfg ups h
    rw [he, timeUTCUpdates_first cfg 1 (by decide) pre post g p hpre hg]
    simp only [List.flatten_append, List.flatten_cons, flatten_map_nil, List.nil_append,
      List.filter_append, timeUTCUpdates_later_no_init, List.append_nil]
    rfl

theorem timeUTC_ms_range (p : List Nat)
    (h0 : 0 ≤ (UBX_nav_timeutc.ofPayload p).nano)
    (h1 : (UBX_nav_timeutc.ofPayload p).nano ≤ 999999999) :
    timeUTC_ms p = ((UBX_nav_timeutc.ofPayload p).nano + 5000000) / 10000000 ∧
    0 ≤ timeUTC_ms p ∧ timeUTC_ms p ≤ 100 ∧
    (timeUTC_ms p = 100 ↔ 995000000 ≤ (UBX_nav_timeutc.ofPayload p).nano) := by
  unfold timeUTC_ms
  generalize (UBX_nav_timeutc.ofPayload p).nano = n at h0 h1
  rw [wrap32_of_range (n + 5000000) (by omega) (by omega),
    Int.tdiv_eq_ediv (by omega : (0 : Int) ≤ n + 5000000),
    wrap32_of_range _ (by omega) (by omega)]
  · omega
  · omega

/-! ## The claims -/

/-- C1. Round trip: the bytes `UBX_SendMessage(c, i, |p|, p)` transmits, fed
one at a time to `UBX_HandleByte` in a decoder that awaits the first sync
byte, make every call return 0 except the last, which returns 1; afterwards
the decoded class is `c`, the id is `i`, the payload length is `|p|` and the
first `|p|` bytes of the payload buffer are `p` (payload length 0..64). -/
theorem roundtrip_SendMessage_HandleByte (c i : Nat) (p : List Nat) (d : Decoder)
    (hc : c < 256) (hp : p.length ≤ 64)
    (hs : d.state = st_sync_1) (hbuf : d.UBX_payload.length = 64) :
    ∃ d1, feedBytes d (UBX_SendMessage_tx c i p.length p) =
            some (d1, List.replicate (p.length + 7) 0 ++ [1]) ∧
      d1.UBX_msg_class = c ∧ d1.UBX_msg_id = i ∧ d1.UBX_payload_len = p.length ∧
      d1.UBX_payload.take p.length = p := by
  rw [UBX_SendMessage_tx_eq_specFrame c i p (by omega)]
  obtain ⟨d1, hf, -, h1, h2, h3, h4, -⟩ := feedBytes_specFrame d c i p hs hbuf hc hp
  exact ⟨d1, hf, h1, h2, h3, h4⟩

theorem roundtrip_SendMessage_HandleByte_witness :
    (6 < 256 ∧ [7, 8, 9].length ≤ 64 ∧ Decoder.init.state = st_sync_1 ∧
      Decoder.init.UBX_payload.length = 64) ∧
    ∃ d1, feedBytes Decoder.init (UBX_SendMessage_tx 6 1 [7, 8, 9].length [7, 8, 9]) =
            some (d1, List.replicate ([7, 8, 9].length + 7) 0 ++ [1]) ∧
      d1.UBX_msg_class = 6 ∧ d1.UBX_msg_id = 1 ∧ d1.UBX_payload_len = [7, 8, 9].length ∧
      d1.UBX_payload.take [7, 8, 9].length = [7, 8, 9] :=
  ⟨⟨by decide, by decide, rfl, by decide⟩,
   roundtrip_SendMessage_HandleByte 6 1 [7, 8, 9] Decoder.init (by decide) (by decide) rfl
     (by decide)⟩

/-- C2. Decoder soundness: after any sequence `bs` of bytes has been fed to
`UBX_HandleByte` from the initial state (every call returns), if the call for
the last byte returned 1 then the stored payload length `L` is at most 64 and
the last `L + 8` bytes of `bs` are 0xB5, 0x62, class, id, `L` low byte, `L`
high byte, the `L` stored payload bytes and the two checksum bytes of the
specification's algorithm run over class, id, length bytes and payload. -/
theorem decoder_soundness (bs : List Nat) (hb : ∀ b ∈ bs, b < 256) :
    ∃ d rets, feedBytes Decoder.init bs = some (d, rets) ∧
      (rets.getLast? = some 1 →
        d.UBX_payload_len ≤ 64 ∧
        ([0xB5, 0x62, d.UBX_msg_class, d.UBX_msg_id,
            d.UBX_payload_len % 256, d.UBX_payload_len / 256] ++
          d.UBX_payload.take d.UBX_payload_len ++
          [(specChecksum ([d.UBX_msg_class, d.UBX_msg_id,
              d.UBX_payload_len % 256, d.UBX_payload_len / 256] ++
              d.UBX_payload.take d.UBX_payload_len)).1,
           (specChecksum ([d.UBX_msg_class, d.UBX_msg_id,
              d.UBX_payload_len % 256, d.UBX_payload_len / 256] ++
              d.UBX_payload.take d.UBX_payload_len)).2]) <:+ bs ∧
        (d.UBX_payload.take d.UBX_payload_len).length = d.UBX_payload_len) := by
  obtain ⟨d, rets, hf, hinv, hdel⟩ := DecInv_feedBytes bs Decoder.init [] DecInv_init hb
  refine ⟨d, rets, hf, fun hlast => ?_⟩
  obtain ⟨h1, h2⟩ := hdel hlast
  refine ⟨h1, ?_, ?_⟩
  · simpa [frameBody] using h2
  · rw [List.length_take, hinv.1]; omega

theorem decoder_soundness_witness :
    (∀ b ∈ [0x00, 0xB5, 0x62, 1, 2, 1, 0, 9, 13, 25], b < 256) ∧
    (∃ d rets, feedBytes Decoder.init [0x00, 0xB5, 0x62, 1, 2, 1, 0, 9, 13, 25] = some (d, rets) ∧
      (rets.getLast? = some 1 →
        d.UBX_payload_len ≤ 64 ∧
        ([0xB5, 0x62, d.UBX_msg_class, d.UBX_msg_id,
            d.UBX_payload_len % 256, d.UBX_payload_len / 256] ++
          d.UBX_payload.take d.UBX_payload_len ++
          [(specChecksum ([d.UBX_msg_class, d.UBX_msg_id,
              d.UBX_payload_len % 256, d.UBX_payload_len / 256] ++
              d.UBX_payload.take d.UBX_payload_len)).1,
           (specChecksum ([d.UBX_msg_class, d.UBX_msg_id,
              d.UBX_payload_len % 256, d.UBX_payload_len / 256] ++
              d.UBX_payload.take d.UBX_payload_len)).2]) <:+
            [0x00, 0xB5, 0x62, 1, 2, 1, 0, 9, 13, 25] ∧
        (d.UBX_payload.take d.UBX_payload_len).length = d.UBX_payload_len)) ∧
    (feedBytes Decoder.init [0x00, 0xB5, 0x62, 1, 2, 1, 0, 9, 13, 25]).map (fun r => r.2)
      = some [0, 0, 0, 0, 0, 0, 0, 0, 0, 1] :=
  ⟨by decide, decoder_soundness [0x00, 0xB5, 0x62, 1, 2, 1, 0, 9, 13, 25] (by decide),
   by decide⟩

/-- C3. Encoder wire format: for class `c`, id `i` and a payload `p` of
`size` bytes (`size` a 16-bit value), `UBX_SendMessage` transmits exactly
0xB5, 0x62, `c`, `i`, `size mod 256`, `size div 256`, the payload bytes in
order, ckA, ckB, where (ckA, ckB) is the result of the specification's
checksum algorithm run over `c`, `i`, the two length bytes and the payload. -/
theorem UBX_SendMessage_wire_format (c i size : Nat) (p : List Nat)
    (hsize : p.length = size) (h16 : size < 65536) :
    UBX_SendMessage_tx c i size p =
      [0xB5, 0x62, c, i, size % 256, size / 256] ++ p ++
        [(specChecksum ([c, i, size % 256, size / 256] ++ p)).1,
         (specChecksum ([c, i, size % 256, size / 256] ++ p)).2] := by
  subst hsize
  rw [UBX_SendMessage_tx_eq_specFrame c i p h16]
  simp [specFrame, specBody]

theorem UBX_SendMessage_wire_format_witness :
    ([7, 8, 9].length = 3 ∧ 3 < 65536) ∧
    UBX_SendMessage_tx 6 1 3 [7, 8, 9] =
      [0xB5, 0x62, 6, 1, 3 % 256, 3 / 256] ++ [7, 8, 9] ++
        [(specChecksum ([6, 1, 3 % 256, 3 / 256] ++ [7, 8, 9])).1,
         (specChecksum ([6, 1, 3 % 256, 3 / 256] ++ [7, 8, 9])).2] :=
  ⟨⟨rfl, by decide⟩, UBX_SendMessage_wire_format 6 1 3 [7, 8, 9] rfl (by decide)⟩

/-- C4. A frame of the specification with payload length 1..64 in which one
bit of one payload byte has been flipped, the two trailing checksum bytes
left as they were, is rejected: fed to `UBX_HandleByte` in a decoder that
awaits the first sync byte, every call returns 0. -/
theorem single_bit_flip_rejected (c i : Nat) (p : List Nat) (k j : Nat) (d : Decoder)
    (hc : c < 256) (hpb : ∀ x ∈ p, x < 256) (hp : p.length ≤ 64)
    (hk : k < p.length) (hj : j < 8)
    (hs : d.state = st_sync_1) (hbuf : d.UBX_payload.length = 64) :
    ∃ d1, feedBytes d (flipPayloadBit (specFrame c i p) k j) =
      some (d1, List.replicate ((flipPayloadBit (specFrame c i p) k j).length) 0) := by
  have hx : p.getD k 0 < 256 := by
    rw [List.getD_eq_getElem?_getD, List.getElem?_eq_getElem hk]
    exact hpb _ (List.getElem_mem _)
  obtain ⟨d1, h⟩ := feedBytes_flipped d c i p k j hs hbuf hc hp hk hj hx
  refine ⟨d1, ?_⟩
  rw [h]
  simp [flipPayloadBit, specFrame, specBody]

theorem single_bit_flip_rejected_witness :
    (6 < 256 ∧ (∀ x ∈ [7, 8, 9], x < 256) ∧ [7, 8, 9].length ≤ 64 ∧ 1 < [7, 8, 9].length ∧
      5 < 8 ∧ Decoder.init.state = st_sync_1 ∧ Decoder.init.UBX_payload.length = 64) ∧
    ∃ d1, feedBytes Decoder.init (flipPayloadBit (specFrame 6 1 [7, 8, 9]) 1 5) =
      some (d1, List.replicate ((flipPayloadBit (specFrame 6 1 [7, 8, 9]) 1 5).length) 0) :=
  ⟨⟨by decide, by decide, by decide, by decide, by decide, rfl, by decide⟩,
   single_bit_flip_rejected 6 1 [7, 8, 9] 1 5 Decoder.init (by decide) (by decide) (by decide)
     (by decide) (by decide) rfl (by decide)⟩

/-- C5, as the claim states it, fails. With the six noise bytes 0xB5, 0x62, 1,
2, 8, 0 (a frame header announcing 8 payload bytes) in front of the valid
frame of class 1, id 2 and empty payload, the frame is taken as payload and
every call of `UBX_HandleByte` returns 0; the same happens with the single
noise byte 0xB5 in front of the frame. -/
theorem noise_before_frame_counterexample :
    (feedBytes Decoder.init ([0xB5, 0x62, 1, 2, 8, 0] ++ specFrame 1 2 [] ++ [])).map
        (fun r => r.2) = some [0, 0, 0, 0, 0, 0, 0, 0, 0, 0, 0, 0, 0, 0] ∧
    (feedBytes Decoder.init ([0xB5] ++ specFrame 1 2 [] ++ [])).map
        (fun r => r.2) = some [0, 0, 0, 0, 0, 0, 0, 0, 0] := by
  decide

/-- C5, amended. For a byte stream `noise1 ++ frame ++ noise2` where `frame`
is a frame of the specification (payload length 0..64) and neither `noise1`
nor `noise2` contains the byte 0xB5, feeding the stream to `UBX_HandleByte`
from the initial state returns 1 exactly once, on the last byte of `frame`;
at that point class, id, payload length and payload are those of `frame` and
the decoder awaits the first sync byte, and `noise2` leaves it as it is. -/
theorem one_frame_between_noise (noise1 noise2 : List Nat) (c i : Nat) (p : List Nat)
    (hc : c < 256) (hp : p.length ≤ 64)
    (h1 : 0xB5 ∉ noise1) (h2 : 0xB5 ∉ noise2) :
    ∃ d1, feedBytes Decoder.init (noise1 ++ specFrame c i p) =
        some (d1, List.replicate noise1.length 0 ++ (List.replicate (p.length + 7) 0 ++ [1])) ∧
      d1.state = st_sync_1 ∧
      d1.UBX_msg_class = c ∧ d1.UBX_msg_id = i ∧ d1.UBX_payload_len = p.length ∧
      d1.UBX_payload.take p.length = p ∧
      feedBytes Decoder.init (noise1 ++ specFrame c i p ++ noise2) =
        some (d1, List.replicate noise1.length 0 ++ (List.replicate (p.length + 7) 0 ++ [1]) ++
          List.replicate noise2.length 0) := by
  have hn1 := feedBytes_noise noise1 Decoder.init rfl h1
  obtain ⟨d1, hf, hs1, hcl, hid, hlen, hpl, -⟩ :=
    feedBytes_specFrame Decoder.init c i p rfl (by decide) hc hp
  have hn2 := feedBytes_noise noise2 d1 hs1 h2
  have h12 := feedBytes_append_some _ _ _ _ _ _ _ hn1 hf
  exact ⟨d1, h12, hs1, hcl, hid, hlen, hpl, feedBytes_append_some _ _ _ _ _ _ _ h12 hn2⟩

theorem one_frame_between_noise_witness :
    (1 < 256 ∧ [5].length ≤ 64 ∧ 0xB5 ∉ [0, 0x62, 7] ∧ 0xB5 ∉ [9, 9]) ∧
    ∃ d1, feedBytes Decoder.init ([0, 0x62, 7] ++ specFrame 1 2 [5]) =
        some (d1, List.replicate [0, 0x62, 7].length 0 ++
          (List.replicate ([5].length + 7) 0 ++ [1])) ∧
      d1.state = st_sync_1 ∧
      d1.UBX_msg_class = 1 ∧ d1.UBX_msg_id = 2 ∧ d1.UBX_payload_len = [5].length ∧
      d1.UBX_payload.take [5].length = [5] ∧
      feedBytes Decoder.init ([0, 0x62, 7] ++ specFrame 1 2 [5] ++ [9, 9]) =
        some (d1, List.replicate [0, 0x62, 7].length 0 ++
          (List.replicate ([5].length + 7) 0 ++ [1]) ++ List.replicate [9, 9].length 0) :=
  ⟨⟨by decide, by decide, by decide, by decide⟩,
   one_frame_between_noise [0, 0x62, 7] [9, 9] 1 2 [5] (by decide) (by decide) (by decide)
     (by decide)⟩

/-- C6. Length handling: in a decoder that awaits the length-high byte, with
`len = lengthLow + 256 * byte` (no 16-bit wrap), the call returns 0 and stores
`len`; if `len = 0` the next state is checksum-a, if `1 ≤ len ≤ 64` it is
payload with the write cursor at 0, and if `len > 64` it is
awaiting-first-sync and the payload buffer is unchanged. -/
theorem length_high_byte_handling (d : Decoder) (ch : Nat)
    (hs : d.state = st_length_2) (hw : d.UBX_payload_len + 256 * ch < 65536) :
    ∃ d1, UBX_HandleByte d ch = some (d1, 0) ∧
      d1.UBX_payload_len = d.UBX_payload_len + 256 * ch ∧
      (d.UBX_payload_len + 256 * ch = 0 → d1.state = st_ck_a) ∧
      (1 ≤ d.UBX_payload_len + 256 * ch ∧ d.UBX_payload_len + 256 * ch ≤ 64 →
        d1.state = st_payload ∧ d1.index = 0) ∧
      (64 < d.UBX_payload_len + 256 * ch →
        d1.state = st_sync_1 ∧ d1.UBX_payload = d.UBX_payload) := by
  have hlen : (d.UBX_payload_len + ch * 256) % 65536 = d.UBX_payload_len + 256 * ch := by
    rw [Nat.mod_eq_of_lt (by omega)]; omega
  unfold UBX_HandleByte
  rw [hs]
  simp only [hlen]
  by_cases h0 : d.UBX_payload_len + 256 * ch = 0
  · simp [h0]
  · by_cases h1 : d.UBX_payload_len + 256 * ch ≤ 64
    · have h2 : ¬ (64 < d.UBX_payload_len + 256 * ch) := by omega
      simp [h0, h1, h2]
    · have h2 : 64 < d.UBX_payload_len + 256 * ch := by omega
      simp [h0, h1, h2]

theorem length_high_byte_handling_witness :
    (({ Decoder.init with state := st_length_2, UBX_payload_len := 65 } : Decoder).state
        = st_length_2 ∧ 65 + 256 * 0 < 65536) ∧
    ∃ d1, UBX_HandleByte { Decoder.init with state := st_length_2, UBX_payload_len := 65 } 0
        = some (d1, 0) ∧
      d1.UBX_payload_len = 65 + 256 * 0 ∧
      (65 + 256 * 0 = 0 → d1.state = st_ck_a) ∧
      (1 ≤ 65 + 256 * 0 ∧ 65 + 256 * 0 ≤ 64 → d1.state = st_payload ∧ d1.index = 0) ∧
      (64 < 65 + 256 * 0 → d1.state = st_sync_1 ∧
        d1.UBX_payload = Decoder.init.UBX_payload) :=
  ⟨⟨rfl, by decide⟩,
   length_high_byte_handling { Decoder.init with state := st_length_2, UBX_payload_len := 65 } 0
     rfl (by decide)⟩

/-- C7, as the claim states it, fails. A frame of class 1, id 2 with payload
(6, 1) followed by an acknowledgment frame (class 0x05, id 0x01) with an empty
payload: the two frames are delivered, none of them has class 0x05 and first
two payload bytes (6, 1), and yet `UBX_WaitForAck(6, 1, ...)` returns 1,
because it compares `UBX_payload[0]` and `UBX_payload[1]`, which still hold the
bytes of the earlier frame. -/
theorem handshake_short_ack_counterexample :
    (UBX_WaitForAck 6 1 Decoder.init
        ((specFrame 1 2 [6, 1] ++ specFrame 5 1 []).map some)).map (fun r => r.2) = some 1 ∧
    (deliveries Decoder.init
        (Polls.bytes ((specFrame 1 2 [6, 1] ++ specFrame 5 1 []).map some))).map
      (fun ds => ds.map (fun f => (f.UBX_msg_class, f.UBX_msg_id, framePayload f)))
        = some [(1, 2, [6, 1]), (5, 1, [])] ∧
    (deliveries Decoder.init
        (Polls.bytes ((specFrame 1 2 [6, 1] ++ specFrame 5 1 []).map some))).map
      (fun ds => ds.find? (isReplyFrame 6 1)) = some none := by
  decide

/-- C7, amended. `UBX_WaitForAck(cls, id, timeout)`, run on the receive polls
that occur before the countdown reaches 0, from a decoder whose write cursor
is inside its frame, returns 1 if and only if, among the frames delivered
from that input, the first one that has class 0x05, id 0x01 or 0x00 and for
which `UBX_payload[0]`, `UBX_payload[1]` (the first two bytes of the payload
buffer when the frame is delivered) equal `(cls, id)` has id 0x01; it returns
0 if that frame has id 0x00 or if there is no such frame.  Frames that do not
pass this test do not change the result. -/
theorem handshake_outcome (msg_class msg_id : Nat) (polls : Polls) (d : Decoder)
    (hd : CursorOk d) :
    ∃ ds d1 r, deliveries d polls.bytes = some ds ∧
      UBX_WaitForAck msg_class msg_id d polls = some (d1, r) ∧
      (r = 1 ↔ ∃ f, ds.find? (isReply msg_class msg_id) = some f ∧
        f.UBX_msg_id = UBX_ACK_ACK) ∧
      (r = 0 ↔ (∃ f, ds.find? (isReply msg_class msg_id) = some f ∧
        f.UBX_msg_id = UBX_ACK_NAK) ∨ ds.find? (isReply msg_class msg_id) = none) := by
  obtain ⟨ds, d1, h1, h2⟩ := UBX_WaitForAck_eq_handshakeResult msg_class msg_id polls d hd
  refine ⟨ds, d1, _, h1, h2, ?_, ?_⟩
  · unfold handshakeResult
    cases hf : ds.find? (isReply msg_class msg_id) with
    | none => simp
    | some f =>
      by_cases hi : f.UBX_msg_id = UBX_ACK_ACK
      · simp [hi]
      · simp [hi]
  · unfold handshakeResult
    cases hf : ds.find? (isReply msg_class msg_id) with
    | none => simp
    | some f =>
      have hrep := List.find?_some hf
      simp only [isReply, decide_eq_true_eq] at hrep
      obtain ⟨-, hi, -, -⟩ := hrep
      rcases hi with hi | hi
      · simp [hi]
      · simp [hi]

theorem handshake_outcome_witness :
    CursorOk Decoder.init ∧
    ∃ ds d1 r, deliveries Decoder.init
        (Polls.bytes ([none] ++ (specFrame 5 0 [6, 8]).map some ++ [none] ++
          (specFrame 5 1 [6, 1]).map some)) = some ds ∧
      UBX_WaitForAck 6 1 Decoder.init ([none] ++ (specFrame 5 0 [6, 8]).map some ++ [none] ++
          (specFrame 5 1 [6, 1]).map some) = some (d1, r) ∧
      (r = 1 ↔ ∃ f, ds.find? (isReply 6 1) = some f ∧ f.UBX_msg_id = UBX_ACK_ACK) ∧
      (r = 0 ↔ (∃ f, ds.find? (isReply 6 1) = some f ∧ f.UBX_msg_id = UBX_ACK_NAK) ∨
        ds.find? (isReply 6 1) = none) :=
  ⟨(by intro h; cases h),
   handshake_outcome 6 1 ([none] ++ (specFrame 5 0 [6, 8]).map some ++ [none] ++
          (specFrame 5 1 [6, 1]).map some) Decoder.init (by intro h; cases h)⟩

/-- C8. Gating: whatever the configuration and the 3-sample history, a velocity
sample with `abs(velD) < UBX_threshold` or `gSpeed < UBX_hThreshold`, handled
by `UBX_HandleVelocity` while a fix is held, leaves both channel values
invalid, and the only call to the tone collaborator is `Tone_SetRate(0)`. -/
theorem gating_silences (tone : Tone_h) (cfg : Config) (g : Globals) (payload : List Nat)
    (hfix : g.UBX_hasFix ≠ 0)
    (hgate : (UBX_nav_velned.ofPayload payload).velD.natAbs < cfg.UBX_threshold ∨
      (UBX_nav_velned.ofPayload payload).gSpeed < cfg.UBX_hThreshold) :
    ∃ g1 c, UBX_HandleVelocity_values cfg g payload = some (g1, c) ∧
      c.val_1 = UBX_INVALID_VALUE ∧ c.val_2 = UBX_INVALID_VALUE ∧
      UBX_HandleVelocity tone cfg g payload = some (g1, [Tone_SetRate 0]) := by
  obtain ⟨g1, hv, hf⟩ := UBX_HandleVelocity_values_closed cfg g payload hgate
  refine ⟨g1, _, hv, rfl, rfl, ?_⟩
  unfold UBX_HandleVelocity
  rw [hv]
  simp [hf, hfix, UBX_SetTone]

theorem gating_silences_witness :
    (({ Globals.init with UBX_hasFix := 1 } : Globals).UBX_hasFix ≠ 0 ∧
      ((UBX_nav_velned.ofPayload (velPayload [0x18, 0xFC, 0xFF, 0xFF] [0xB8, 0x0B, 0, 0])).velD.natAbs
          < ({ UBX_threshold := 1001 } : Config).UBX_threshold ∨
       (UBX_nav_velned.ofPayload (velPayload [0x18, 0xFC, 0xFF, 0xFF] [0xB8, 0x0B, 0, 0])).gSpeed
          < ({ UBX_threshold := 1001 } : Config).UBX_hThreshold)) ∧
    ∃ g1 c, UBX_HandleVelocity_values { UBX_threshold := 1001 }
          { Globals.init with UBX_hasFix := 1 }
          (velPayload [0x18, 0xFC, 0xFF, 0xFF] [0xB8, 0x0B, 0, 0]) = some (g1, c) ∧
      c.val_1 = UBX_INVALID_VALUE ∧ c.val_2 = UBX_INVALID_VALUE ∧
      UBX_HandleVelocity ⟨65535, 100, 1⟩ { UBX_threshold := 1001 }
          { Globals.init with UBX_hasFix := 1 }
          (velPayload [0x18, 0xFC, 0xFF, 0xFF] [0xB8, 0x0B, 0, 0]) = some (g1, [Tone_SetRate 0]) :=
  ⟨⟨by decide, by decide⟩,
   gating_silences ⟨65535, 100, 1⟩ { UBX_threshold := 1001 } { Globals.init with UBX_hasFix := 1 }
     (velPayload [0x18, 0xFC, 0xFF, 0xFF] [0xB8, 0x0B, 0, 0]) (by decide) (by decide)⟩

/-- C9, on the code: at program start, with the default configuration
(primary mode 2, secondary mode 9), the first velocity update with
`velD = 2000` and `gSpeed = 3000` already yields the secondary value 12500,
and with a fix held it sets the tone rate 499. -/
theorem mode9_first_update_has_value :
    (UBX_HandleVelocity_values {} Globals.init
        (velPayload [0xD0, 0x07, 0, 0] [0xB8, 0x0B, 0, 0])).map
      (fun r => (r.1.x0, r.1.x1, r.1.x2, r.2.val_1, r.2.val_2))
        = some (15000, -1, 0, 15000, 12500) ∧
    ∀ tone : Tone_h, ∃ g1 p,
      UBX_HandleVelocity tone {} { Globals.init with UBX_hasFix := 1 }
        (velPayload [0xD0, 0x07, 0, 0] [0xB8, 0x0B, 0, 0]) = some (g1, [Tone_SetRate 499, p]) := by
  refine ⟨by decide, fun tone => ?_⟩
  exact ⟨_, Tone_SetPitch (wrap32 (Int.tdiv (wrap32 (tone.TONE_MAX_PITCH * 15000)) 30000)), rfl⟩

/-- C10, as the claim states it, fails: with the default configuration
(primary mode 2, range 0..300 scaled to 0..30000, sampling period 200) and the
valid primary values 0 (newest), 50000 and 100000 (oldest), the claimed value is
`10000 * 250000 / 30000 = 83333`, but `10000 * 250000` does not fit 32 bits and
`UBX_HandleVelocity` computes -59832. -/
theorem mode9_formula_overflow_counterexample :
    (UBX_HandleVelocity_values {} { Globals.init with x0 := 50000, x1 := 100000 }
        (velPayload [0xE8, 0x03, 0, 0] [0, 0, 0, 0])).map
      (fun r => (r.1.x0, r.1.x1, r.1.x2, r.2.min_1, r.2.max_1, r.2.val_2))
        = some (0, 50000, 100000, 0, 30000, -59832) ∧
    Int.tdiv (10000 * ((Int.tdiv (1000 * (100000 - 0)) (2 * 200)).natAbs : Int))
      (((30000 : Int) - 0).natAbs : Int) = 83333 := by
  decide

/-- C10, amended. With secondary mode 9, when the three most recent gated
primary values `x0` (newest), `x1`, `x2` (oldest) are all valid, the sampling
period satisfies `0 < 2 * UBX_rate < 65536`, the range width `pmax - pmin` is
non-zero and `1000 * (x2 - x0)`, `10000 * abs(d)` and `pmax - pmin` fit a signed
32-bit integer, the secondary value computed by `UBX_HandleVelocity` is
`10000 * abs(d) / abs(pmax - pmin)` with `d = 1000 * (x2 - x0) / (2 * UBX_rate)`,
both divisions truncating toward zero (`pmin`, `pmax` being the primary range
after any x100 scaling). -/
theorem mode9_formula (cfg : Config) (g : Globals) (payload : List Nat)
    (x0 x2 pmin pmax : Int)
    (hmode : cfg.UBX_mode_2 = 9)
    (hx0 : (UBX_HandleVelocity_gate cfg (UBX_nav_velned.ofPayload payload)).val_1 = x0)
    (hmin : (UBX_HandleVelocity_gate cfg (UBX_nav_velned.ofPayload payload)).min_1 = pmin)
    (hmax : (UBX_HandleVelocity_gate cfg (UBX_nav_velned.ofPayload payload)).max_1 = pmax)
    (hx2 : g.x1 = x2)
    (hv0 : x0 ≠ UBX_INVALID_VALUE) (hv1 : g.x0 ≠ UBX_INVALID_VALUE)
    (hv2 : x2 ≠ UBX_INVALID_VALUE)
    (hrate : 0 < cfg.UBX_rate ∧ 2 * cfg.UBX_rate < 65536)
    (hwidth : pmax ≠ pmin ∧ -2147483648 < pmax - pmin ∧ pmax - pmin < 2147483648)
    (hd : -2147483648 ≤ 1000 * (x2 - x0) ∧ 1000 * (x2 - x0) < 2147483648)
    (hs : 10000 * ((Int.tdiv (1000 * (x2 - x0)) (2 * cfg.UBX_rate)).natAbs : Int)
      < 2147483648) :
    ∃ g1 c, UBX_HandleVelocity_values cfg g payload = some (g1, c) ∧
      g1.x0 = x0 ∧ g1.x1 = g.x0 ∧ g1.x2 = x2 ∧ c.min_1 = pmin ∧ c.max_1 = pmax ∧
      c.val_2 = Int.tdiv
        (10000 * ((Int.tdiv (1000 * (x2 - x0)) (2 * cfg.UBX_rate)).natAbs : Int))
        ((pmax - pmin).natAbs : Int) := by
  have hdiv : (((2 * cfg.UBX_rate) % 65536 : Nat) : Int) = 2 * (cfg.UBX_rate : Int) := by
    rw [Nat.mod_eq_of_lt hrate.2]; push_cast; rfl
  have hnum : wrap32 (1000 * wrap32 (x2 - x0)) = 1000 * (x2 - x0) := by
    rw [wrap32_of_range (x2 - x0) (by omega) (by omega), wrap32_of_range _ hd.1 hd.2]
  have h1 : div32 (wrap32 (1000 * wrap32 (x2 - x0))) (((2 * cfg.UBX_rate) % 65536 : Nat) : Int)
      = some (Int.tdiv (1000 * (x2 - x0)) (2 * cfg.UBX_rate)) := by
    rw [hnum, hdiv]
    exact div32_of_range _ _ (by omega) (by omega)
  have habs : ABS (Int.tdiv (1000 * (x2 - x0)) (2 * cfg.UBX_rate))
      = ((Int.tdiv (1000 * (x2 - x0)) (2 * cfg.UBX_rate)).natAbs : Int) :=
    ABS_of_range _ (by omega) (by omega)
  have hw : ABS (wrap32 (pmax - pmin)) = ((pmax - pmin).natAbs : Int) := by
    rw [wrap32_of_range _ (by omega) hwidth.2.2]
    exact ABS_of_range _ hwidth.2.1 hwidth.2.2
  have h2 : div32 (wrap32 (10000 * ABS (Int.tdiv (1000 * (x2 - x0)) (2 * cfg.UBX_rate))))
      (ABS (wrap32 (pmax - pmin)))
      = some (Int.tdiv
        (10000 * ((Int.tdiv (1000 * (x2 - x0)) (2 * cfg.UBX_rate)).natAbs : Int))
        ((pmax - pmin).natAbs : Int)) := by
    rw [habs, hw, wrap32_of_range _ (by omega) hs]
    exact div32_of_range _ _ (by omega) (by omega)
  unfold UBX_HandleVelocity_values
  dsimp only
  rw [if_pos hmode, hx0, hmin, hmax, hx2, if_pos ⟨hv0, hv1, hv2⟩, h1]
  dsimp only
  rw [h2]
  exact ⟨_, _, rfl, rfl, rfl, rfl, rfl, rfl, rfl⟩

theorem mode9_formula_witness :
    (exampleConfig.UBX_mode_2 = 9 ∧
      (UBX_HandleVelocity_gate exampleConfig
        (UBX_nav_velned.ofPayload (velPayload [100, 0, 0, 0] [0, 0, 0, 0]))).val_1 = 100 ∧
      (UBX_HandleVelocity_gate exampleConfig
        (UBX_nav_velned.ofPayload (velPayload [100, 0, 0, 0] [0, 0, 0, 0]))).min_1 = 0 ∧
      (UBX_HandleVelocity_gate exampleConfig
        (UBX_nav_velned.ofPayload (velPayload [100, 0, 0, 0] [0, 0, 0, 0]))).max_1 = 1000 ∧
      exampleGlobals.x1 = 80 ∧
      (100 : Int) ≠ UBX_INVALID_VALUE ∧ exampleGlobals.x0 ≠ UBX_INVALID_VALUE ∧
      (80 : Int) ≠ UBX_INVALID_VALUE ∧
      (0 < exampleConfig.UBX_rate ∧ 2 * exampleConfig.UBX_rate < 65536) ∧
      ((1000 : Int) ≠ 0 ∧ (-2147483648 : Int) < 1000 - 0 ∧ (1000 : Int) - 0 < 2147483648) ∧
      ((-2147483648 : Int) ≤ 1000 * (80 - 100) ∧ (1000 : Int) * (80 - 100) < 2147483648) ∧
      10000 * ((Int.tdiv (1000 * (80 - 100)) (2 * exampleConfig.UBX_rate)).natAbs : Int)
        < 2147483648) ∧
    (∃ g1 c, UBX_HandleVelocity_values exampleConfig exampleGlobals
          (velPayload [100, 0, 0, 0] [0, 0, 0, 0]) = some (g1, c) ∧
      g1.x0 = 100 ∧ g1.x1 = exampleGlobals.x0 ∧ g1.x2 = 80 ∧ c.min_1 = 0 ∧ c.max_1 = 1000 ∧
      c.val_2 = Int.tdiv
        (10000 * ((Int.tdiv (1000 * (80 - 100)) (2 * exampleConfig.UBX_rate)).natAbs : Int))
        (((1000 : Int) - 0).natAbs : Int)) ∧
    Int.tdiv
        (10000 * ((Int.tdiv (1000 * (80 - 100)) (2 * exampleConfig.UBX_rate)).natAbs : Int))
        (((1000 : Int) - 0).natAbs : Int) = 500 :=
  ⟨⟨by decide, by decide, by decide, by decide, by decide, by decide, by decide, by decide,
      by decide, by decide, by decide, by decide⟩,
   mode9_formula exampleConfig exampleGlobals (velPayload [100, 0, 0, 0] [0, 0, 0, 0])
     100 80 0 1000 (by decide) (by decide) (by decide) (by decide) (by decide) (by decide)
     (by decide) (by decide) (by decide) (by decide) (by decide) (by decide),
   by decide⟩

/-- C11, as the claim states it, fails. With `UBX_min_rate = UBX_max_rate = 100`
the rate for a value inside the range 0..10 is 100, which is not below
`UBX_max_rate`.  With rates 100..500, range 0..40000000 and value 20000000 the
product `400 * 20000000` does not fit 32 bits and the rate is 192, not 300.  With
rates 100..500, the inverted range 1500..300 and value 900 the operands
`value - min` and `max - min` are negative, are converted to `uint32_t`, and
the rate is 100, not `100 + 400 * (-600) / (-1200) = 300`. -/
theorem rate_interpolation_counterexample :
    UBX_SetTone_rate exampleTone { UBX_min_rate := 100, UBX_max_rate := 100 } 5 0 10
      = some (Tone_SetRate 100) ∧
    UBX_SetTone_rate exampleTone { UBX_min_rate := 100, UBX_max_rate := 500 }
        20000000 0 40000000 = some (Tone_SetRate 192) ∧
    (100 + Int.tdiv ((500 - 100) * (20000000 - 0)) (40000000 - 0) : Int) = 300 ∧
    UBX_SetTone_rate exampleTone { UBX_min_rate := 100, UBX_max_rate := 500 } 900 1500 300
      = some (Tone_SetRate 100) ∧
    (100 + Int.tdiv ((500 - 100) * (900 - 1500)) (300 - 1500) : Int) = 300 := by
  decide

/-- C11, amended. In `UBX_SetTone` with both channel values valid,
`UBX_min_rate < UBX_max_rate` and a range with `min < max`, for every secondary
value strictly between the bounds for which the product
`(UBX_max_rate - UBX_min_rate) * (value - min)` fits an unsigned 32-bit integer,
the rate passed to the tone collaborator equals
`UBX_min_rate + (UBX_max_rate - UBX_min_rate) * (value - min) / (max - min)` and
lies in `[UBX_min_rate, UBX_max_rate)`. -/
theorem rate_interpolation (tone : Tone_h) (cfg : Config)
    (val_1 min_1 max_1 val_2 min_2 max_2 : Int)
    (hv1 : val_1 ≠ UBX_INVALID_VALUE) (hv2 : val_2 ≠ UBX_INVALID_VALUE)
    (h1 : IsInt32 min_1) (h2 : IsInt32 max_1) (h3 : IsInt32 min_2) (h4 : IsInt32 max_2)
    (hrate : cfg.UBX_min_rate < cfg.UBX_max_rate) (hmaxr : cfg.UBX_max_rate < 4294967296)
    (hb : min_2 < val_2 ∧ val_2 < max_2)
    (hov : (cfg.UBX_max_rate - cfg.UBX_min_rate) * (val_2 - min_2).toNat < 4294967296) :
    (∃ p, UBX_SetTone tone cfg val_1 min_1 max_1 val_2 min_2 max_2 =
      some [Tone_SetRate (cfg.UBX_min_rate +
        (cfg.UBX_max_rate - cfg.UBX_min_rate) * (val_2 - min_2).toNat /
          (max_2 - min_2).toNat), p]) ∧
    cfg.UBX_min_rate ≤ cfg.UBX_min_rate +
        (cfg.UBX_max_rate - cfg.UBX_min_rate) * (val_2 - min_2).toNat /
          (max_2 - min_2).toNat ∧
    cfg.UBX_min_rate +
        (cfg.UBX_max_rate - cfg.UBX_min_rate) * (val_2 - min_2).toNat /
          (max_2 - min_2).toNat < cfg.UBX_max_rate := by
  obtain ⟨hr, hlo, hhi⟩ :=
    UBX_SetTone_rate_between tone cfg val_2 min_2 max_2 hrate hmaxr hb h3 h4 hov
  obtain ⟨p, hp⟩ := UBX_SetTone_pitch_isSome tone val_1 min_1 max_1 h1 h2
  exact ⟨⟨p, UBX_SetTone_valid tone cfg _ _ _ _ _ _ _ p hv1 hv2 hr hp⟩, hlo, hhi⟩

theorem rate_interpolation_witness :
    ((5 : Int) ≠ UBX_INVALID_VALUE ∧ (900 : Int) ≠ UBX_INVALID_VALUE ∧
      IsInt32 0 ∧ IsInt32 300 ∧ IsInt32 300 ∧ IsInt32 1500 ∧
      ({} : Config).UBX_min_rate < ({} : Config).UBX_max_rate ∧
      ({} : Config).UBX_max_rate < 4294967296 ∧
      ((300 : Int) < 900 ∧ (900 : Int) < 1500) ∧
      (({} : Config).UBX_max_rate - ({} : Config).UBX_min_rate) * ((900 : Int) - 300).toNat
        < 4294967296) ∧
    ((∃ p, UBX_SetTone exampleTone {} 5 0 300 900 300 1500 =
      some [Tone_SetRate (({} : Config).UBX_min_rate +
        (({} : Config).UBX_max_rate - ({} : Config).UBX_min_rate) * ((900 : Int) - 300).toNat /
          ((1500 : Int) - 300).toNat), p]) ∧
    ({} : Config).UBX_min_rate ≤ ({} : Config).UBX_min_rate +
        (({} : Config).UBX_max_rate - ({} : Config).UBX_min_rate) * ((900 : Int) - 300).toNat /
          ((1500 : Int) - 300).toNat ∧
    ({} : Config).UBX_min_rate +
        (({} : Config).UBX_max_rate - ({} : Config).UBX_min_rate) * ((900 : Int) - 300).toNat /
          ((1500 : Int) - 300).toNat < ({} : Config).UBX_max_rate) ∧
    UBX_SetTone exampleTone {} 5 0 300 900 300 1500 =
      some [Tone_SetRate 300, Tone_SetPitch 1] :=
  ⟨⟨by decide, by decide, ⟨by decide, by decide⟩, ⟨by decide, by decide⟩,
      ⟨by decide, by decide⟩, ⟨by decide, by decide⟩, by decide, by decide,
      ⟨by decide, by decide⟩, by decide⟩,
   rate_interpolation exampleTone {} 5 0 300 900 300 1500 (by decide) (by decide)
     ⟨by decide, by decide⟩ ⟨by decide, by decide⟩ ⟨by decide, by decide⟩
     ⟨by decide, by decide⟩ (by decide) (by decide) ⟨by decide, by decide⟩ (by decide),
   by decide⟩

/-- C12. Pitch endpoint mapping: in `UBX_SetTone` with both channel values
valid, for a range with `min < max` a primary value `v <= min` gives pitch
index 0 and `v >= max` gives `TONE_MAX_PITCH - 1`; for a range with `min > max`
a value `v >= min` gives 0 and `v <= max` gives `TONE_MAX_PITCH - 1`. -/
theorem pitch_endpoints (tone : Tone_h) (cfg : Config) (v min max val_2 min_2 max_2 : Int)
    (hv : v ≠ UBX_INVALID_VALUE) (hv2 : val_2 ≠ UBX_INVALID_VALUE)
    (h3 : IsInt32 min_2) (h4 : IsInt32 max_2) :
    (min < max → v ≤ min →
      ∃ r, UBX_SetTone tone cfg v min max val_2 min_2 max_2 = some [r, Tone_SetPitch 0]) ∧
    (min < max → v ≥ max →
      ∃ r, UBX_SetTone tone cfg v min max val_2 min_2 max_2 =
        some [r, Tone_SetPitch (tone.TONE_MAX_PITCH - 1)]) ∧
    (min > max → v ≥ min →
      ∃ r, UBX_SetTone tone cfg v min max val_2 min_2 max_2 = some [r, Tone_SetPitch 0]) ∧
    (min > max → v ≤ max →
      ∃ r, UBX_SetTone tone cfg v min max val_2 min_2 max_2 =
        some [r, Tone_SetPitch (tone.TONE_MAX_PITCH - 1)]) := by
  obtain ⟨r, hr⟩ := UBX_SetTone_rate_isSome tone cfg val_2 min_2 max_2 h3 h4
  refine ⟨?_, ?_, ?_, ?_⟩
  · intro hlt hle
    refine ⟨r, UBX_SetTone_valid tone cfg _ _ _ _ _ _ r _ hv hv2 hr ?_⟩
    have hu : UNDER v min max = true := by simp [UNDER, hlt, hle]
    simp [UBX_SetTone_pitch, hu]
  · intro hlt hge
    refine ⟨r, UBX_SetTone_valid tone cfg _ _ _ _ _ _ r _ hv hv2 hr ?_⟩
    have hu : ¬ UNDER v min max = true := by simp [UNDER, hlt]; omega
    have ho : OVER v min max = true := by simp [OVER, hlt, hge]
    simp [UBX_SetTone_pitch, hu, ho]
  · intro hgt hge
    refine ⟨r, UBX_SetTone_valid tone cfg _ _ _ _ _ _ r _ hv hv2 hr ?_⟩
    have hn : ¬ min < max := by omega
    have hu : UNDER v min max = true := by simp [UNDER, hn, hge]
    simp [UBX_SetTone_pitch, hu]
  · intro hgt hle
    refine ⟨r, UBX_SetTone_valid tone cfg _ _ _ _ _ _ r _ hv hv2 hr ?_⟩
    have hn : ¬ min < max := by omega
    have hu : ¬ UNDER v min max = true := by simp [UNDER, hn]; omega
    have ho : OVER v min max = true := by simp [OVER, hn, hle]
    simp [UBX_SetTone_pitch, hu, ho]

theorem pitch_endpoints_witness :
    ((300 : Int) ≠ UBX_INVALID_VALUE ∧ (5 : Int) ≠ UBX_INVALID_VALUE ∧
      IsInt32 0 ∧ IsInt32 10) ∧
    (∃ r, UBX_SetTone exampleTone {} 300 0 300 5 0 10 =
        some [r, Tone_SetPitch (exampleTone.TONE_MAX_PITCH - 1)]) ∧
    (∃ r, UBX_SetTone exampleTone {} 300 300 0 5 0 10 = some [r, Tone_SetPitch 0]) :=
  ⟨⟨by decide, by decide, ⟨by decide, by decide⟩, ⟨by decide, by decide⟩⟩,
   (pitch_endpoints exampleTone {} 300 0 300 5 0 10 (by decide) (by decide)
     ⟨by decide, by decide⟩ ⟨by decide, by decide⟩).2.1 (by decide) (by decide),
   (pitch_endpoints exampleTone {} 300 300 0 5 0 10 (by decide) (by decide)
     ⟨by decide, by decide⟩ ⟨by decide, by decide⟩).2.2.1 (by decide) (by decide)⟩

/-- C13. Pitch interpolation is bounded: in `UBX_SetTone` with both channel
values valid and `TONE_MAX_PITCH = P > 0`, for every primary value `v` strictly
between the bounds (`min < v < max`, or `max < v < min` for an inverted range),
when `v - min`, `max - min` and `P * (v - min)` fit `int32_t` (no overflow), the
pitch index passed to the tone collaborator is `P * (v - min) / (max - min)`,
truncating toward zero, and satisfies `0 <= pitch < P`. -/
theorem pitch_interpolation_bounded (tone : Tone_h) (cfg : Config)
    (v min max val_2 min_2 max_2 : Int)
    (hv : v ≠ UBX_INVALID_VALUE) (hv2 : val_2 ≠ UBX_INVALID_VALUE)
    (h3 : IsInt32 min_2) (h4 : IsInt32 max_2)
    (hP : 0 < tone.TONE_MAX_PITCH)
    (hb : (min < v ∧ v < max) ∨ (max < v ∧ v < min))
    (ho1 : IsInt32 (v - min)) (ho2 : IsInt32 (max - min))
    (ho3 : IsInt32 (tone.TONE_MAX_PITCH * (v - min))) :
    (∃ r, UBX_SetTone tone cfg v min max val_2 min_2 max_2 =
      some [r, Tone_SetPitch (Int.tdiv (tone.TONE_MAX_PITCH * (v - min)) (max - min))]) ∧
    0 ≤ Int.tdiv (tone.TONE_MAX_PITCH * (v - min)) (max - min) ∧
    Int.tdiv (tone.TONE_MAX_PITCH * (v - min)) (max - min) < tone.TONE_MAX_PITCH := by
  obtain ⟨r, hr⟩ := UBX_SetTone_rate_isSome tone cfg val_2 min_2 max_2 h3 h4
  have hp := UBX_SetTone_pitch_between tone v min max hP hb ho1 ho2 ho3
  have hq := tdiv_between tone.TONE_MAX_PITCH (v - min) (max - min) hP (by omega)
  exact ⟨⟨r, UBX_SetTone_valid tone cfg _ _ _ _ _ _ r _ hv hv2 hr hp⟩, hq.1, hq.2⟩

theorem pitch_interpolation_bounded_witness :
    ((900 : Int) ≠ UBX_INVALID_VALUE ∧ (5 : Int) ≠ UBX_INVALID_VALUE ∧
      IsInt32 0 ∧ IsInt32 10 ∧ 0 < exampleTone.TONE_MAX_PITCH ∧
      (((1500 : Int) < 900 ∧ (900 : Int) < 300) ∨ ((300 : Int) < 900 ∧ (900 : Int) < 1500)) ∧
      IsInt32 (900 - 1500) ∧ IsInt32 (300 - 1500) ∧
      IsInt32 (exampleTone.TONE_MAX_PITCH * (900 - 1500))) ∧
    ((∃ r, UBX_SetTone exampleTone {} 900 1500 300 5 0 10 =
      some [r, Tone_SetPitch (Int.tdiv (exampleTone.TONE_MAX_PITCH * (900 - 1500))
        (300 - 1500))]) ∧
    0 ≤ Int.tdiv (exampleTone.TONE_MAX_PITCH * (900 - 1500)) (300 - 1500) ∧
    Int.tdiv (exampleTone.TONE_MAX_PITCH * (900 - 1500)) (300 - 1500)
      < exampleTone.TONE_MAX_PITCH) ∧
    Int.tdiv (exampleTone.TONE_MAX_PITCH * (900 - 1500)) (300 - 1500) = 50 :=
  ⟨⟨by decide, by decide, ⟨by decide, by decide⟩, ⟨by decide, by decide⟩, by decide,
      Or.inr ⟨by decide, by decide⟩, ⟨by decide, by decide⟩, ⟨by decide, by decide⟩,
      ⟨by decide, by decide⟩⟩,
   pitch_interpolation_bounded exampleTone {} 900 1500 300 5 0 10 (by decide) (by decide)
     ⟨by decide, by decide⟩ ⟨by decide, by decide⟩ (by decide)
     (Or.inr ⟨by decide, by decide⟩) ⟨by decide, by decide⟩ ⟨by decide, by decide⟩
     ⟨by decide, by decide⟩,
   by decide⟩

/-- C14, as the claim states it, fails: with `gSpeed = 300000` and
`velD = 1000`, mode 2 yields -1294967 and not `10000 * 300000 / 1000 = 3000000`,
because `10000 * gSpeed` does not fit `int32_t`; the range 0..300 is scaled to
0..30000. -/
theorem glide_ratio_overflow_counterexample :
    UBX_GetValues (velRecord 1000 300000) 2 UBX_INVALID_VALUE 0 300 = (-1294967, 0, 30000) ∧
    Int.tdiv (10000 * 300000) 1000 = 3000000 := by
  decide

/-- C14, amended. `UBX_GetValues` in mode 2 leaves the channel value (and min,
max) as it was whenever `velD = 0`, and in mode 3 whenever `gSpeed = 0`: no
division is performed, and the value set up as invalid by `UBX_HandleVelocity`
stays invalid.  When the divisor is non-zero and the products fit `int32_t`
(`10000 * gSpeed` in mode 2; `10000 * velD` and `gSpeed` in mode 3; `min * 100`
and `max * 100`), mode 2 yields `10000 * gSpeed / velD` and mode 3 yields
`10000 * velD / gSpeed`, truncating, with min and max multiplied by 100. -/
theorem glide_ratio_guards (cfg : Config) (v : UBX_nav_velned) (val min max : Int) :
    (v.velD = 0 → UBX_GetValues v 2 val min max = (val, min, max)) ∧
    (v.gSpeed = 0 → UBX_GetValues v 3 val min max = (val, min, max)) ∧
    (toU32 (ABS v.velD) ≥ cfg.UBX_threshold ∧ v.gSpeed ≥ cfg.UBX_hThreshold →
      (cfg.UBX_mode = 2 ∧ v.velD = 0 ∨ cfg.UBX_mode = 3 ∧ v.gSpeed = 0 →
        (UBX_HandleVelocity_gate cfg v).val_1 = UBX_INVALID_VALUE) ∧
      (cfg.UBX_mode_2 = 2 ∧ v.velD = 0 ∨ cfg.UBX_mode_2 = 3 ∧ v.gSpeed = 0 →
        (UBX_HandleVelocity_gate cfg v).val_2 = UBX_INVALID_VALUE)) ∧
    (v.velD ≠ 0 → IsInt32 (10000 * (v.gSpeed : Int)) → IsInt32 (min * 100) →
      IsInt32 (max * 100) →
      UBX_GetValues v 2 val min max =
        (Int.tdiv (10000 * (v.gSpeed : Int)) v.velD, min * 100, max * 100)) ∧
    (v.gSpeed ≠ 0 → IsInt32 (10000 * v.velD) → (v.gSpeed : Int) < 2147483648 →
      IsInt32 (min * 100) → IsInt32 (max * 100) →
      UBX_GetValues v 3 val min max =
        (Int.tdiv (10000 * v.velD) (v.gSpeed : Int), min * 100, max * 100)) := by
  refine ⟨?_, ?_, ?_, ?_, ?_⟩
  · intro h
    simp [UBX_GetValues, h]
  · intro h
    simp [UBX_GetValues, h]
  · intro hgate
    unfold UBX_HandleVelocity_gate
    dsimp only
    rw [if_pos hgate]
    constructor
    · rintro (⟨hm, h0⟩ | ⟨hm, h0⟩)
      · rw [hm]; simp [UBX_GetValues, h0]
      · rw [hm]; simp [UBX_GetValues, h0]
    · rintro (⟨hm, h0⟩ | ⟨hm, h0⟩)
      · rw [hm]; simp [UBX_GetValues, h0]
      · rw [hm]; simp [UBX_GetValues, h0]
  · intro h hg hmin hmax
    have w1 : wrap32 (v.gSpeed : Int) = v.gSpeed := by
      unfold IsInt32 at hg; unfold wrap32; omega
    have w2 : wrap32 (10000 * (v.gSpeed : Int)) = 10000 * (v.gSpeed : Int) := by
      unfold IsInt32 at hg; unfold wrap32; omega
    have w3 := tdiv_IsInt32 (10000 * (v.gSpeed : Int)) v.velD hg (by omega)
    have w4 : wrap32 (min * 100) = min * 100 := by
      unfold IsInt32 at hmin; unfold wrap32; omega
    have w5 : wrap32 (max * 100) = max * 100 := by
      unfold IsInt32 at hmax; unfold wrap32; omega
    simp only [UBX_GetValues, ne_eq, h, not_false_eq_true, if_true, w1, w2, w3, w4, w5]
  · intro h hd hgs hmin hmax
    have w1 : wrap32 (v.gSpeed : Int) = v.gSpeed := by
      unfold wrap32; omega
    have w2 : wrap32 (10000 * v.velD) = 10000 * v.velD := by
      unfold IsInt32 at hd; unfold wrap32; omega
    have w3 := tdiv_IsInt32 (10000 * v.velD) v.gSpeed hd (by unfold IsInt32 at hd; omega)
    have w4 : wrap32 (min * 100) = min * 100 := by
      unfold IsInt32 at hmin; unfold wrap32; omega
    have w5 : wrap32 (max * 100) = max * 100 := by
      unfold IsInt32 at hmax; unfold wrap32; omega
    simp only [UBX_GetValues, ne_eq, h, not_false_eq_true, if_true, w1, w2, w3, w4, w5]

theorem glide_ratio_guards_witness :
    UBX_GetValues (velRecord 0 3000) 2 UBX_INVALID_VALUE 0 300 = (UBX_INVALID_VALUE, 0, 300) ∧
    UBX_GetValues (velRecord 2000 0) 3 UBX_INVALID_VALUE 0 300 = (UBX_INVALID_VALUE, 0, 300) ∧
    (UBX_HandleVelocity_gate { UBX_mode := 2, UBX_threshold := 0 } (velRecord 0 3000)).val_1
      = UBX_INVALID_VALUE ∧
    UBX_GetValues (velRecord (-2000) 3000) 2 UBX_INVALID_VALUE 0 300 =
      (Int.tdiv (10000 * ((velRecord (-2000) 3000).gSpeed : Int)) (velRecord (-2000) 3000).velD,
        0 * 100, 300 * 100) ∧
    UBX_GetValues (velRecord (-2000) 3000) 3 UBX_INVALID_VALUE 0 300 =
      (Int.tdiv (10000 * (velRecord (-2000) 3000).velD) ((velRecord (-2000) 3000).gSpeed : Int),
        0 * 100, 300 * 100) ∧
    Int.tdiv (10000 * ((velRecord (-2000) 3000).gSpeed : Int)) (velRecord (-2000) 3000).velD
      = -15000 ∧
    Int.tdiv (10000 * (velRecord (-2000) 3000).velD) ((velRecord (-2000) 3000).gSpeed : Int)
      = -6666 :=
  ⟨(glide_ratio_guards {} (velRecord 0 3000) UBX_INVALID_VALUE 0 300).1 rfl,
   (glide_ratio_guards {} (velRecord 2000 0) UBX_INVALID_VALUE 0 300).2.1 rfl,
   ((glide_ratio_guards { UBX_mode := 2, UBX_threshold := 0 } (velRecord 0 3000)
      UBX_INVALID_VALUE 0 300).2.2.1 (by decide)).1 (Or.inl ⟨rfl, rfl⟩),
   (glide_ratio_guards {} (velRecord (-2000) 3000) UBX_INVALID_VALUE 0 300).2.2.2.1
     (by decide) ⟨by decide, by decide⟩ ⟨by decide, by decide⟩ ⟨by decide, by decide⟩,
   (glide_ratio_guards {} (velRecord (-2000) 3000) UBX_INVALID_VALUE 0 300).2.2.2.2
     (by decide) ⟨by decide, by decide⟩ (by decide) ⟨by decide, by decide⟩
     ⟨by decide, by decide⟩,
   by decide, by decide⟩

/-- C15, as the claim states it, fails: for the updates 3D fix, no fix, 3D fix
processed from the initial state the tone calls are one beep and one
`Tone_SetRate(0)`; the second run of 3D fix does not beep. -/
theorem fix_beep_counterexample :
    (navSolUpdates exampleTone {} Globals.init [solPayload 3, solPayload 0, solPayload 3]).map
        (fun r => (r.2, (r.2.filter isBeep).length)) =
      some ([Tone_Beep (exampleTone.TONE_MAX_PITCH - 1) exampleTone.TONE_LENGTH_125_MS,
        Tone_SetRate 0], 1) := by
  decide

/-- C15, amended. For every sequence of NavSolution updates processed by
`UBX_HandleNavSol` from the initial state, the number of confirmation beeps is
1 if some update of the sequence has `gpsFix = 3` and 0 otherwise: the beep is
emitted once, and `UBX_hasBeeped` is never cleared. -/
theorem fix_beep_once (tone : Tone_h) (cfg : Config) (ps : List (List Nat)) :
    ∃ g1 calls, navSolUpdates tone cfg Globals.init ps = some (g1, calls) ∧
      (calls.filter isBeep).length =
        if ps.any (fun p => decide (p.getD 10 0 = 3)) = true then 1 else 0 := by
  obtain ⟨g1, calls, h1, h2⟩ := navSolUpdates_beeps tone cfg ps Globals.init
  refine ⟨g1, calls, h1, ?_⟩
  rw [h2]
  simp [Globals.init]

/-- C16. Fix loss silences the engine: after a NavSolution update
`UBX_hasFix` is 1 if `gpsFix = 3` and 0 otherwise, and an update with
`gpsFix` other than 3 issues exactly `Tone_SetRate(0)`; a velocity update
processed while `UBX_hasFix` is clear makes no tone call (and is defined
whenever the mode-9 divisors are non-zero); hence over any sequence of
dispatched frames that starts with the flag clear and holds no NavSolution
with `gpsFix = 3`, the flag stays clear and every tone call is
`Tone_SetRate(0)`. -/
theorem fix_loss_silences (tone : Tone_h) (cfg : Config) (g : Globals) (payload : List Nat) :
    (∃ g1 calls, UBX_HandleNavSol tone cfg g payload = some (g1, calls) ∧
      (payload.getD 10 0 = 3 → g1.UBX_hasFix = 1) ∧
      (payload.getD 10 0 ≠ 3 → g1.UBX_hasFix = 0 ∧ calls = [Tone_SetRate 0])) ∧
    (g.UBX_hasFix = 0 →
      UBX_HandleVelocity tone cfg g payload =
        (UBX_HandleVelocity_values cfg g payload).map (fun r => (r.1, []))) ∧
    (g.UBX_hasFix = 0 → Mode9Defined cfg payload →
      ∃ g1, UBX_HandleVelocity tone cfg g payload = some (g1, []) ∧ g1.UBX_hasFix = 0) ∧
    (∀ (ds : List Decoder) (g1 : Globals) (out : List Effect), g.UBX_hasFix = 0 →
      (∀ d ∈ ds, isFixSol d = false) →
      dispatchAll tone cfg g ds = some (g1, out) →
      g1.UBX_hasFix = 0 ∧ ∀ c, Effect.tone c ∈ out → c = Tone_SetRate 0) ∧
    (∀ ds : List Decoder, g.UBX_hasFix = 0 → (∀ d ∈ ds, isFixSol d = false) →
      (∀ d ∈ ds, Mode9Defined cfg d.UBX_payload) →
      ∃ r, dispatchAll tone cfg g ds = some r) := by
  refine ⟨?_, UBX_HandleVelocity_nofix tone cfg g payload, ?_, ?_, ?_⟩
  · by_cases h : payload.getD 10 0 = 3
    · obtain ⟨g1, hs, hf, -, -⟩ := UBX_HandleNavSol_fix tone cfg g payload h
      exact ⟨g1, _, hs, fun _ => hf, fun hn => absurd h hn⟩
    · obtain ⟨g1, hs, hf, -, -⟩ := UBX_HandleNavSol_nofix tone cfg g payload h
      exact ⟨g1, _, hs, fun h3 => absurd h3 h, fun _ => ⟨hf, rfl⟩⟩
  · intro hg hm
    obtain ⟨r, hr⟩ := UBX_HandleVelocity_values_isSome cfg g payload hm
    obtain ⟨g1, c⟩ := r
    have hf := UBX_HandleVelocity_values_hasFix cfg g g1 payload c hr
    refine ⟨g1, ?_, by rw [hf, hg]⟩
    rw [UBX_HandleVelocity_nofix tone cfg g payload hg, hr]
    rfl
  · intro ds g1 out hg hds h
    exact dispatchAll_nofix tone cfg ds g g1 out hg hds h
  · intro ds hg hds hm
    exact dispatchAll_nofix_isSome tone cfg ds g hg hds hm

theorem fix_loss_silences_witness :
    (dispatchAll exampleTone {} { Globals.init with UBX_hasFix := 1 }
        [navFrame UBX_NAV_VELNED (velPayload [0xD0, 0x07, 0, 0] [0xB8, 0x0B, 0, 0]),
         navFrame UBX_NAV_SOL (solPayload 2),
         navFrame UBX_NAV_VELNED (velPayload [0xD0, 0x07, 0, 0] [0xB8, 0x0B, 0, 0]),
         navFrame UBX_NAV_VELNED (velPayload [0xD0, 0x07, 0, 0] [0xB8, 0x0B, 0, 0])]).map
      (fun r => (r.1.UBX_hasFix, r.2)) =
      some (0, [Effect.tone (Tone_SetRate 499), Effect.tone (Tone_SetPitch 50),
        Effect.tone (Tone_SetRate 0)]) ∧
    (∃ g1, UBX_HandleVelocity exampleTone {} Globals.init
        (velPayload [0xD0, 0x07, 0, 0] [0xB8, 0x0B, 0, 0]) = some (g1, []) ∧
      g1.UBX_hasFix = 0) :=
  ⟨by decide,
   (fix_loss_silences exampleTone {} Globals.init
     (velPayload [0xD0, 0x07, 0, 0] [0xB8, 0x0B, 0, 0])).2.2.1 rfl
     (fun _ => ⟨by decide, by decide⟩)⟩

/-- C17. Log gating and session start.  An update handled by
`UBX_HandleTimeUTC` whose stored `gpsFix` is not 3 or whose stored `sAcc` is
not below `UBX_sAccThreshold` makes no log or power call and changes nothing;
a qualifying update makes, apart from a possible `Log_Init`, exactly the calls
of one record (power hold, the field writes, flush, power release).  Over any
sequence of updates from program start (`initializeLog = 1`): if no update
qualifies nothing is called; otherwise the first qualifying update calls
`Power_Hold`, then `Log_Init` with its own year, month, day, hour, minute and
second, then the field writes, flush and release, every later qualifying
update emits one record without `Log_Init`, and `Log_Init` is called exactly
once in all. -/
theorem log_gating_session_start (cfg : Config) (ups : List (Globals × List Nat)) :
    (∀ (g : Globals) (p : List Nat), logGate cfg g = false →
      UBX_HandleTimeUTC cfg g p = (g, [])) ∧
    (∀ (g : Globals) (p : List Nat), logGate cfg g = true →
      (UBX_HandleTimeUTC cfg g p).2.filter (fun c => !isLogInit c) = logRecord g p) ∧
    ((∀ u ∈ ups, logGate cfg u.1 = false) →
      timeUTCUpdates cfg 1 ups = ups.map (fun _ => [])) ∧
    (∀ (pre post : List (Globals × List Nat)) (g : Globals) (p : List Nat),
      ups = pre ++ (g, p) :: post → (∀ u ∈ pre, logGate cfg u.1 = false) →
      logGate cfg g = true →
      timeUTCUpdates cfg 1 ups =
        pre.map (fun _ => []) ++
          (Power_Hold :: logInit p ::
            (UBX_HandleTimeUTC_fields g (UBX_nav_timeutc.ofPayload p) (timeUTC_ms p) ++
              [Log_Flush, Power_Release])) ::
          post.map (fun u => if logGate cfg u.1 then logRecord u.1 u.2 else [])) ∧
    (((timeUTCUpdates cfg 1 ups).flatten).filter isLogInit).length =
      (if ups.any (fun u => logGate cfg u.1) then 1 else 0) := by
  refine ⟨fun g p h => UBX_HandleTimeUTC_gate_false cfg g p h, ?_,
    fun h => timeUTCUpdates_none cfg 1 ups h, ?_, timeUTCUpdates_init_count cfg ups⟩
  · intro g p h
    by_cases hi : g.initializeLog = 0
    · rw [UBX_HandleTimeUTC_gate_later cfg g p h hi]
      rfl
    · rw [UBX_HandleTimeUTC_gate_first cfg g p h hi]
      rfl
  · intro pre post g p he hpre hg
    rw [he]
    exact timeUTCUpdates_first cfg 1 (by decide) pre post g p hpre hg

theorem log_gating_session_start_witness :
    timeUTCUpdates {} 1
        [({ exampleLogGlobals with UBX_nav_sol_saved := { gpsFix := 2, numSV := 7 } },
            timePayload [0x40, 0x4B, 0x4C, 0x00] [0xE8, 0x07] 1 15 10 29 59),
         (exampleLogGlobals, timePayload [0x40, 0x4B, 0x4C, 0x00] [0xE8, 0x07] 1 15 10 30 0)] =
      [[],
       [Power_Hold, Log_Init 2024 1 15 10 30 0,
        Log_WriteInt32 2024 4 0 '-', Log_WriteInt32 1 2 0 '-', Log_WriteInt32 15 2 0 'T',
        Log_WriteInt32 10 2 0 ':', Log_WriteInt32 30 2 0 ':', Log_WriteInt32 0 2 0 '.',
        Log_WriteInt32 1 2 0 'Z', Log_WriteChar ',',
        Log_WriteInt32 0 7 1 ',', Log_WriteInt32 0 7 1 ',', Log_WriteInt32 0 3 1 ',',
        Log_WriteInt32 0 2 1 ',', Log_WriteInt32 0 2 1 ',', Log_WriteInt32 0 2 1 ',',
        Log_WriteInt32 0 3 1 ',', Log_WriteInt32 0 3 1 ',', Log_WriteInt32 50 2 1 ',',
        Log_WriteInt32 3 0 0 ',', Log_WriteInt32 7 0 0 '\r', Log_WriteChar '\n',
        Log_Flush, Power_Release]] ∧
    timeUTCUpdates {} 1
        [({ exampleLogGlobals with UBX_nav_sol_saved := { gpsFix := 2, numSV := 7 } },
            timePayload [0x40, 0x4B, 0x4C, 0x00] [0xE8, 0x07] 1 15 10 29 59),
         (exampleLogGlobals, timePayload [0x40, 0x4B, 0x4C, 0x00] [0xE8, 0x07] 1 15 10 30 0)] =
      [[]] ++
        (Power_Hold :: logInit (timePayload [0x40, 0x4B, 0x4C, 0x00] [0xE8, 0x07] 1 15 10 30 0) ::
          (UBX_HandleTimeUTC_fields exampleLogGlobals
              (UBX_nav_timeutc.ofPayload
                (timePayload [0x40, 0x4B, 0x4C, 0x00] [0xE8, 0x07] 1 15 10 30 0))
              (timeUTC_ms (timePayload [0x40, 0x4B, 0x4C, 0x00] [0xE8, 0x07] 1 15 10 30 0)) ++
            [Log_Flush, Power_Release])) :: [] :=
  ⟨by decide,
   (log_gating_session_start {}
     [({ exampleLogGlobals with UBX_nav_sol_saved := { gpsFix := 2, numSV := 7 } },
          timePayload [0x40, 0x4B, 0x4C, 0x00] [0xE8, 0x07] 1 15 10 29 59),
       (exampleLogGlobals,
          timePayload [0x40, 0x4B, 0x4C, 0x00] [0xE8, 0x07] 1 15 10 30 0)]).2.2.2.1
     [({ exampleLogGlobals with UBX_nav_sol_saved := { gpsFix := 2, numSV := 7 } },
          timePayload [0x40, 0x4B, 0x4C, 0x00] [0xE8, 0x07] 1 15 10 29 59)]
     [] exampleLogGlobals (timePayload [0x40, 0x4B, 0x4C, 0x00] [0xE8, 0x07] 1 15 10 30 0)
     rfl (by decide) (by decide)⟩

/-- C18. The millisecond field is not always within 0..99: for a qualifying
update with `nano = 995,000,000` (and up to 999,999,999) the value
`(nano + 5000000) / 10000000` written by `Log_WriteInt32` with two digits
and delimiter Z is 100,
with the seconds field unchanged; for `nano = 994,999,999` it is 99 and for
`nano = 5,000,000` it is 1. -/
theorem millisecond_field_reaches_100 :
    (i32le (timePayload [0xC0, 0x7E, 0x4E, 0x3B] [0xE8, 0x07] 1 15 10 30 0) 8 = 995000000 ∧
      logGate {} exampleLogGlobals = true ∧
      (UBX_HandleTimeUTC {} exampleLogGlobals
          (timePayload [0xC0, 0x7E, 0x4E, 0x3B] [0xE8, 0x07] 1 15 10 30 0)).2.drop 7 =
        [Log_WriteInt32 0 2 0 '.', Log_WriteInt32 100 2 0 'Z', Log_WriteChar ',',
          Log_WriteInt32 0 7 1 ',', Log_WriteInt32 0 7 1 ',', Log_WriteInt32 0 3 1 ',',
          Log_WriteInt32 0 2 1 ',', Log_WriteInt32 0 2 1 ',', Log_WriteInt32 0 2 1 ',',
          Log_WriteInt32 0 3 1 ',', Log_WriteInt32 0 3 1 ',', Log_WriteInt32 50 2 1 ',',
          Log_WriteInt32 3 0 0 ',', Log_WriteInt32 7 0 0 '\r', Log_WriteChar '\n',
          Log_Flush, Power_Release]) ∧
    (i32le (timePayload [0xFF, 0xC9, 0x9A, 0x3B] [0xE8, 0x07] 1 15 10 30 0) 8 = 999999999 ∧
      (UBX_HandleTimeUTC {} exampleLogGlobals
          (timePayload [0xFF, 0xC9, 0x9A, 0x3B] [0xE8, 0x07] 1 15 10 30 0)).2.get? 8 =
        some (Log_WriteInt32 100 2 0 'Z')) ∧
    (i32le (timePayload [0xBF, 0x7E, 0x4E, 0x3B] [0xE8, 0x07] 1 15 10 30 0) 8 = 994999999 ∧
      (UBX_HandleTimeUTC {} exampleLogGlobals
          (timePayload [0xBF, 0x7E, 0x4E, 0x3B] [0xE8, 0x07] 1 15 10 30 0)).2.get? 8 =
        some (Log_WriteInt32 99 2 0 'Z')) ∧
    (i32le (timePayload [0x40, 0x4B, 0x4C, 0x00] [0xE8, 0x07] 1 15 10 30 0) 8 = 5000000 ∧
      (UBX_HandleTimeUTC {} exampleLogGlobals
          (timePayload [0x40, 0x4B, 0x4C, 0x00] [0xE8, 0x07] 1 15 10 30 0)).2.get? 8 =
        some (Log_WriteInt32 1 2 0 'Z')) := by
  decide

/-- C19. Payload buffer bounds: for every byte sequence fed to
`UBX_HandleByte` from the initial decoder, every call is defined (no write
outside `UBX_payload`), the decoder reached satisfies
`index < UBX_payload_len ≤ 64` whenever it is in the payload state, and the
call for any further byte is defined as well. -/
theorem payload_cursor_in_bounds (bs : List Nat) :
    ∃ d rets, feedBytes Decoder.init bs = some (d, rets) ∧
      (d.state = st_payload → d.index < d.UBX_payload_len ∧ d.UBX_payload_len ≤ 64) ∧
      (d.state = st_payload → d.index < UBX_MAX_PAYLOAD_LEN) ∧
      ∀ ch, ∃ d1 r, UBX_HandleByte d ch = some (d1, r) ∧
        (d1.state = st_payload → d1.index < d1.UBX_payload_len ∧ d1.UBX_payload_len ≤ 64) := by
  obtain ⟨d, rets, hf, hd⟩ := CursorOk_feedBytes bs Decoder.init CursorOk_init
  refine ⟨d, rets, hf, hd, ?_, ?_⟩
  · intro hs
    have := hd hs
    show d.index < 64
    omega
  · intro ch
    exact CursorOk_step d ch hd

/-- C20. Interpolation never divides by zero: for every call of `UBX_SetTone`
whose min/max arguments are `int32_t` values, the call is defined (no division
by zero occurs); when `min = max` every value is classified as under or over,
and whenever a value is neither under nor over the divisor `max - min`, as the
code computes it, is non-zero, for the pitch (signed) and for the rate
(converted to unsigned) alike. -/
theorem interpolation_never_divides_by_zero (tone : Tone_h) (cfg : Config)
    (val_1 min_1 max_1 val_2 min_2 max_2 : Int)
    (h1 : IsInt32 min_1) (h2 : IsInt32 max_1) (h3 : IsInt32 min_2) (h4 : IsInt32 max_2) :
    (∃ calls, UBX_SetTone tone cfg val_1 min_1 max_1 val_2 min_2 max_2 = some calls) ∧
    (min_1 = max_1 → UNDER val_1 min_1 max_1 = true ∨ OVER val_1 min_1 max_1 = true) ∧
    (min_2 = max_2 → UNDER val_2 min_2 max_2 = true ∨ OVER val_2 min_2 max_2 = true) ∧
    (¬ UNDER val_1 min_1 max_1 = true → ¬ OVER val_1 min_1 max_1 = true →
      min_1 ≠ max_1 ∧ wrap32 (max_1 - min_1) ≠ 0) ∧
    (¬ UNDER val_2 min_2 max_2 = true → ¬ OVER val_2 min_2 max_2 = true →
      min_2 ≠ max_2 ∧ toU32 (wrap32 (max_2 - min_2)) ≠ 0) := by
  refine ⟨?_, UNDER_or_OVER_of_eq _ _ _, UNDER_or_OVER_of_eq _ _ _, ?_, ?_⟩
  · obtain ⟨r, hr⟩ := UBX_SetTone_rate_isSome tone cfg val_2 min_2 max_2 h3 h4
    obtain ⟨p, hp⟩ := UBX_SetTone_pitch_isSome tone val_1 min_1 max_1 h1 h2
    by_cases hv : val_1 ≠ UBX_INVALID_VALUE ∧ val_2 ≠ UBX_INVALID_VALUE
    · exact ⟨_, UBX_SetTone_valid tone cfg _ _ _ _ _ _ r p hv.1 hv.2 hr hp⟩
    · unfold UBX_SetTone
      rw [if_neg hv]
      exact ⟨_, rfl⟩
  · intro hu ho
    have hne := ne_of_not_UNDER_of_not_OVER _ _ _ hu ho
    exact ⟨hne, wrap32_sub_ne_zero max_1 min_1 h2 h1 hne⟩
  · intro hu ho
    have hne := ne_of_not_UNDER_of_not_OVER _ _ _ hu ho
    exact ⟨hne, toU32_wrap32_sub_ne_zero max_2 min_2 h4 h3 hne⟩

theorem interpolation_never_divides_by_zero_witness :
    (IsInt32 7 ∧ IsInt32 7 ∧ IsInt32 (-2147483648) ∧ IsInt32 2147483647) ∧
    (∃ calls, UBX_SetTone exampleTone {} 7 7 7 0 (-2147483648) 2147483647 = some calls) ∧
    (UNDER 7 7 7 = true ∨ OVER 7 7 7 = true) ∧
    ((-2147483648 : Int) ≠ 2147483647 ∧
      toU32 (wrap32 (2147483647 - (-2147483648))) ≠ 0) :=
  ⟨⟨⟨by decide, by decide⟩, ⟨by decide, by decide⟩, ⟨by decide, by decide⟩,
      ⟨by decide, by decide⟩⟩,
   (interpolation_never_divides_by_zero exampleTone {} 7 7 7 0 (-2147483648) 2147483647
     ⟨by decide, by decide⟩ ⟨by decide, by decide⟩ ⟨by decide, by decide⟩
     ⟨by decide, by decide⟩).1,
   (interpolation_never_divides_by_zero exampleTone {} 7 7 7 0 (-2147483648) 2147483647
     ⟨by decide, by decide⟩ ⟨by decide, by decide⟩ ⟨by decide, by decide⟩
     ⟨by decide, by decide⟩).2.1 rfl,
   (interpolation_never_divides_by_zero exampleTone {} 7 7 7 0 (-2147483648) 2147483647
     ⟨by decide, by decide⟩ ⟨by decide, by decide⟩ ⟨by decide, by decide⟩
     ⟨by decide, by decide⟩).2.2.2.2 (by decide) (by decide)⟩

end UBX
